import Mathlib

/-!
Verification development for the assistant24 business-assistant backend.

The repository ships the React dashboard (under `frontend/`), the SQL
bootstrap script and the architecture document `SYSTEM_ARCHITECTURE.md`;
the Python backend that implements the Agent Orchestration Runtime
(`backend/app/agents/runtime.py` and friends, referenced by the
architecture document) is not part of the checked-in sources.  The
runtime, idempotency guard, reminder scheduler and retrieval contract
are therefore modelled from the specification text, while the chat page
and the i18n translation function are embedded directly from the
TypeScript sources.
-/

namespace Runtime

/-- Modelled from the spec (§3 Data Model): run status enumeration of an
`AgentRun`: `{running, completed, failed, cancelled}`. -/
inductive RunStatus where
  | running
  | completed
  | failed
  | cancelled
  deriving DecidableEq

/-- Modelled from the spec (§3 Data Model): status of a single `Step`:
`success | failed | timed_out`. -/
inductive StepStatus where
  | success
  | failed
  | timed_out
  deriving DecidableEq

/-- Modelled from the spec (§3 Data Model): one hop inside a run.  The
`args` and `duration_ms` fields play no role in any claim and are kept
as the `result`-style opaque strings would be; `tool` is `none` for a
pure handoff or final answer. -/
structure Step where
  step_id : Nat
  agent : String
  tool : Option String
  result : String
  status : StepStatus
  deriving DecidableEq

/-- Modelled from the spec (§3 Data Model): one execution of the loop
for one inbound event.  `final_output` is present only when the status
is terminal. -/
structure AgentRun where
  steps : List Step
  status : RunStatus
  final_output : Option String
  deriving DecidableEq

/-- Modelled from the spec (§4.2): what an agent activation can produce:
a final textual answer, a handoff to another agent, or a tool
invocation request. -/
inductive AgentAction where
  | finalAnswer (text : String)
  | handoffTo (target : String)
  | toolCall (tool : String) (args : String)

/-- Modelled from the spec (§4.3, §7): outcome of one tool dispatch:
a result, a schema-validation rejection (`InvalidArgs`), a deadline
miss (`ToolTimeout`), or a domain error (`ToolFailure`). -/
inductive ToolOutcome where
  | ok (result : String)
  | invalidArgs
  | timeout
  | failure

/-- Modelled from the spec (§4.2, §9): the dependencies the Execution
Loop is constructed with.  The non-deterministic reasoning calls
(`Router.classify`, `Agent.think`) and the tool handlers are abstracted
as oracle functions of the run trace so far; `critical` is the per-tool
registry flag of §4.4 and `cancelFlag` the §5 cancellation flag checked
before each new Step. -/
structure LoopEnv where
  maxHops : Nat
  catalog : List String
  agentAct : String → List Step → AgentAction
  toolExec : String → String → List Step → ToolOutcome
  critical : String → Bool
  cancelFlag : List Step → Bool

/-- Modelled from the spec (§3): append one Step; `step_id` is 1-based
and contiguous, and the loop must stop appending once the run status is
non-running. -/
def appendStep (run : AgentRun) (agent : String) (tool : Option String)
    (result : String) (st : StepStatus) : AgentRun :=
  if run.status = RunStatus.running then
    { run with
      steps := run.steps ++
        [{ step_id := run.steps.length + 1, agent := agent, tool := tool,
           result := result, status := st }] }
  else run

/-- Modelled from the spec (§3): set a terminal status and the final
output; terminal state is immutable, so a non-running run is returned
unchanged. -/
def finishRun (run : AgentRun) (st : RunStatus) (out : String) : AgentRun :=
  if run.status = RunStatus.running then
    { run with status := st, final_output := some out }
  else run

/-- Modelled from the spec (§4.4): a partial result exists when at least
one tool step produced a usable (successful) result. -/
def hasPartialResult (steps : List Step) : Bool :=
  steps.any (fun s => s.status == StepStatus.success && s.tool.isSome)

/-- Modelled from the spec (§4.4): names of the tool capabilities whose
steps failed or timed out, used for the degraded final answer. -/
def failedTools (steps : List Step) : List String :=
  (steps.filter (fun s => !(s.status == StepStatus.success) && s.tool.isSome)).map
    (fun s => s.tool.getD "")

/-- Modelled from the spec (§4.4): synthesize a final answer reporting
the successful parts and naming each failed capability in plain
language. -/
def synthesizeOutput (steps : List Step) : String :=
  let ok := (steps.filter
      (fun s => s.status == StepStatus.success && s.tool.isSome)).map
      (fun s => s.result)
  let bad := failedTools steps
  let okPart := if ok.isEmpty then "Nothing to report." else String.intercalate "; " ok
  if bad.isEmpty then okPart
  else okPart ++ " I could not complete: " ++ String.intercalate ", " bad ++ "."

/-- Modelled from the spec (§4.2, §4.4): terminal run for
`HopBudgetExceeded`: `status=failed` only if no partial result exists,
otherwise a degraded `status=completed`. -/
def budgetExceededRun (run : AgentRun) : AgentRun :=
  if hasPartialResult run.steps then
    finishRun run RunStatus.completed
      ("The task could not be completed within the hop budget. " ++
        synthesizeOutput run.steps)
  else
    finishRun run RunStatus.failed
      "The task could not be completed within the hop budget."

/-- Modelled from the spec (§4.2): the bounded hop sequence.  The spec
keeps a run-scoped counter `hops` incremented on every transition into
`acting` and forces `done` when `hops > max_hops`; here `budget`
is `max_hops - hops`, so the increment is the structural decrement and
the force-done check is `budget = 0`.  The returned list is the trace of
run snapshots the loop ever holds, ending with the terminal run. -/
def runLoopAux (env : LoopEnv) (budget : Nat) (queue : List String)
    (run : AgentRun) : AgentRun × List AgentRun :=
  match queue with
  | [] =>
      let r := finishRun run RunStatus.completed (synthesizeOutput run.steps)
      (r, [run, r])
  | agent :: rest =>
      if env.cancelFlag run.steps then
        let r := finishRun run RunStatus.cancelled "Cancelled."
        (r, [run, r])
      else
        match budget with
        | 0 =>
            let r := budgetExceededRun run
            (r, [run, r])
        | Nat.succ b =>
            match env.agentAct agent run.steps with
            | AgentAction.finalAnswer text =>
                let run2 := appendStep run agent none text StepStatus.success
                let r := finishRun run2 RunStatus.completed text
                (r, [run, run2, r])
            | AgentAction.handoffTo target =>
                if env.catalog.contains target then
                  let run2 := appendStep run agent none ("handoff:" ++ target)
                    StepStatus.success
                  let p := runLoopAux env b (target :: rest) run2
                  (p.1, run :: p.2)
                else
                  let run2 := appendStep run agent none
                    ("unknown handoff target: " ++ target) StepStatus.failed
                  let p := runLoopAux env b rest run2
                  (p.1, run :: p.2)
            | AgentAction.toolCall tool args =>
                match env.toolExec tool args run.steps with
                | ToolOutcome.ok res =>
                    let run2 := appendStep run agent (some tool) res
                      StepStatus.success
                    let p := runLoopAux env b rest run2
                    (p.1, run :: p.2)
                | ToolOutcome.invalidArgs =>
                    let run2 := appendStep run agent (some tool) "InvalidArgs"
                      StepStatus.failed
                    let p := runLoopAux env b rest run2
                    (p.1, run :: p.2)
                | ToolOutcome.timeout =>
                    let run2 := appendStep run agent (some tool) "ToolTimeout"
                      StepStatus.timed_out
                    if env.critical tool then
                      let r := finishRun run2 RunStatus.failed
                        ("A critical tool timed out: " ++ tool)
                      (r, [run, run2, r])
                    else
                      let p := runLoopAux env b rest run2
                      (p.1, run :: p.2)
                | ToolOutcome.failure =>
                    let run2 := appendStep run agent (some tool) "ToolFailure"
                      StepStatus.failed
                    if env.critical tool then
                      let r := finishRun run2 RunStatus.failed
                        ("A critical tool failed: " ++ tool)
                      (r, [run, run2, r])
                    else
                      let p := runLoopAux env b rest run2
                      (p.1, run :: p.2)

/-- Modelled from the spec (§3): the run created when the Gateway admits
an event: no steps, running, no final output. -/
def initRun : AgentRun :=
  { steps := [], status := RunStatus.running, final_output := none }

/-- Modelled from the spec (§4.2): one full run of the Execution Loop on
the Router's ordered candidate list, starting with `hops = 0`, i.e. a
full budget of `max_hops`. -/
def runLoop (env : LoopEnv) (candidates : List String) :
    AgentRun × List AgentRun :=
  runLoopAux env env.maxHops candidates initRun

/-- Placeholder Step used as the default of positional lookups in
theorem statements. -/
def defaultStep : Step :=
  { step_id := 0, agent := "", tool := none, result := "",
    status := StepStatus.success }

/-- Modelled from the spec (§3): the step sequence is 1-based and
contiguous. -/
def Contiguous (steps : List Step) : Prop :=
  ∀ (i : Nat) (h : i < steps.length), (steps[i]).step_id = i + 1

/-- Modelled from the spec (§2, §4): the fixed agent catalog used by the
concrete demonstration environments below. -/
def demoCatalog : List String :=
  ["chief", "finance", "tasks", "calendar", "birthday", "knowledge",
   "contacts", "fallback"]

/-- Modelled from the spec (§4.2): an adversarial environment in which
every agent activation hands off to `chief` again, so the Router-level
plan never produces a tool result and only the hop budget can stop the
loop. -/
def handoffOnlyEnv : LoopEnv :=
  { maxHops := 10
    catalog := demoCatalog
    agentAct := fun _ _ => AgentAction.handoffTo "chief"
    toolExec := fun _ _ _ => ToolOutcome.ok ""
    critical := fun _ => false
    cancelFlag := fun _ => false }

/-- Modelled from the spec (§8, partial failure scenario): Router plan
`[knowledge, calendar]`, the non-critical `deep_search` tool of the
Knowledge agent fails with `ToolFailure`, the Calendar agent's
`create_event` succeeds. -/
def partialFailureEnv : LoopEnv :=
  { maxHops := 10
    catalog := demoCatalog
    agentAct := fun agent _ =>
      if agent = "knowledge" then AgentAction.toolCall "deep_search" "Rixos phone"
      else if agent = "calendar" then
        AgentAction.toolCall "create_event" "phone=+77771234567"
      else AgentAction.finalAnswer "done"
    toolExec := fun tool _ _ =>
      if tool = "deep_search" then ToolOutcome.failure
      else ToolOutcome.ok "Event created"
    critical := fun _ => false
    cancelFlag := fun _ => false }

/-- Modelled from the spec (§4.4): an environment whose single planned
tool `execute_payment` is declared `critical` in the registry and
fails, forcing `status=failed`. -/
def criticalFailureEnv : LoopEnv :=
  { maxHops := 10
    catalog := demoCatalog
    agentAct := fun _ _ => AgentAction.toolCall "execute_payment" "amount=5000"
    toolExec := fun _ _ _ => ToolOutcome.failure
    critical := fun tool => tool == "execute_payment"
    cancelFlag := fun _ => false }

/-- Modelled from the spec (§4.2): a benign environment in which the
first agent immediately returns a final answer. -/
def simpleFinalEnv : LoopEnv :=
  { maxHops := 10
    catalog := demoCatalog
    agentAct := fun _ _ => AgentAction.finalAnswer "Hello"
    toolExec := fun _ _ _ => ToolOutcome.ok ""
    critical := fun _ => false
    cancelFlag := fun _ => false }

end Runtime

namespace Guard

/-- Modelled from the spec (§3): an `IdempotencyRecord` is
`(dedupe_key, first_seen_at, expires_at)` together with the recorded
final output of the run (if it has completed), which may be replayed. -/
structure IdempotencyRecord where
  first_seen_at : Nat
  expires_at : Nat
  result : Option String
  deriving DecidableEq

/-- Modelled from the spec (§4.5): the shared key/value store of the
Idempotency Guard, keyed by `dedupe_key`. -/
abbrev Store : Type := List (String × IdempotencyRecord)

/-- Look up the record for a dedupe key. -/
def lookupRec (s : Store) (k : String) : Option IdempotencyRecord :=
  (List.find? (fun p => p.1 = k) s).map Prod.snd

/-- Replace or insert the record for a dedupe key. -/
def setRec (s : Store) (k : String) (r : IdempotencyRecord) : Store :=
  if (List.find? (fun p => p.1 = k) s).isSome then
    List.map (fun p => if p.1 = k then (k, r) else p) s
  else s ++ [(k, r)]

/-- Modelled from the spec (§4.5):
`admit(dedupe_key) → {admitted, prior_result}` as one atomic
check-and-set step: a key with an unexpired record is rejected and its
recorded result (if any) returned for replay; otherwise a fresh record
with `expires_at = now + ttl` is installed and the key admitted.
Concurrent calls are modelled by their linearization order, which the
spec's atomicity requirement makes faithful. -/
def admitEvent (ttl : Nat) (s : Store) (k : String) (now : Nat) :
    Bool × Option String × Store :=
  match lookupRec s k with
  | some r =>
      if now < r.expires_at then (false, r.result, s)
      else (true, none,
        setRec s k { first_seen_at := now, expires_at := now + ttl, result := none })
  | none =>
      (true, none,
        setRec s k { first_seen_at := now, expires_at := now + ttl, result := none })

/-- Modelled from the spec (§4.5): record the completed run's final
output on the key's record so later duplicates can replay it; the
expiry of the dedupe record is untouched. -/
def completeRun (s : Store) (k : String) (out : String) : Store :=
  match lookupRec s k with
  | some r => setRec s k { r with result := some out }
  | none => s

/-- Modelled from the spec (§4.5, §7 DuplicateEvent): what the Inbound
Gateway answers an inbound event with: a fresh Execution-Loop
invocation, a replay of the prior result, or a silent
still-processing acknowledgment. -/
inductive GatewayResponse where
  | executed
  | replayed (out : String)
  | pendingAck
  deriving DecidableEq

/-- Modelled from the spec (§4.5, §5): the atomic operations occurring
at the Gateway, in linearization order: an inbound event consulting the
guard, or the completion of a previously admitted run recording its
output.  A duplicate arriving between an `inbound` and its `finish`
models the concurrent-submission case. -/
inductive GatewayOp where
  | inbound (key : String) (now : Nat)
  | finish (key : String) (out : String)

/-- State threaded through Gateway processing: the guard store, the log
of Execution-Loop invocations `(key, time)` — one per created
AgentRun — and the log of responses. -/
structure GatewayLog where
  store : Store
  invocations : List (String × Nat)
  responses : List (String × GatewayResponse)

/-- Modelled from the spec (§4.5): process one atomic Gateway
operation.  The Execution Loop is invoked exactly when `admit` returns
`admitted=true`; on `admitted=false` the Gateway replays the prior
result or acknowledges, and never re-invokes the loop. -/
def stepGateway (ttl : Nat) (g : GatewayLog) : GatewayOp → GatewayLog
  | GatewayOp.inbound k now =>
      let a := admitEvent ttl g.store k now
      if a.1 then
        { store := a.2.2
          invocations := g.invocations ++ [(k, now)]
          responses := g.responses ++ [(k, GatewayResponse.executed)] }
      else
        match a.2.1 with
        | some prior =>
            { store := a.2.2
              invocations := g.invocations
              responses := g.responses ++ [(k, GatewayResponse.replayed prior)] }
        | none =>
            { store := a.2.2
              invocations := g.invocations
              responses := g.responses ++ [(k, GatewayResponse.pendingAck)] }
  | GatewayOp.finish k out =>
      { store := completeRun g.store k out
        invocations := g.invocations
        responses := g.responses }

/-- The empty Gateway state. -/
def emptyLog : GatewayLog := { store := [], invocations := [], responses := [] }

/-- Process a linearized sequence of Gateway operations. -/
def runGateway (ttl : Nat) (ops : List GatewayOp) : GatewayLog :=
  ops.foldl (stepGateway ttl) emptyLog

/-- Times at which the Execution Loop was invoked for a given key. -/
def invTimes (g : GatewayLog) (k : String) : List Nat :=
  (g.invocations.filter (fun p => p.1 == k)).map Prod.snd

end Guard

namespace Reminder

/-- Modelled from the spec (§3): the identity of one reminder
occurrence, `(entity_id, occurrence_key)`. -/
structure OccId where
  entity_id : String
  occurrence_key : String
  deriving DecidableEq

/-- Modelled from the spec (§3): the ReminderOccurrence store; a
non-null `sent_at` for an `(entity_id, occurrence_key)` is the
at-most-once guarantee. -/
abbrev SentStore : Type := List (OccId × Nat)

/-- Look up `sent_at` for an occurrence. -/
def lookupSent (s : SentStore) (k : OccId) : Option Nat :=
  (List.find? (fun p => p.1 = k) s).map Prod.snd

/-- Modelled from the spec (§4.6): one `due → sent` attempt as the
atomic check-then-write: skip if `sent_at` is already set; otherwise
dispatch, and write `sent_at` only after a successful dispatch.
Overlapping scheduler ticks are modelled by the linearization order of
these atomic steps, which the spec's atomicity requirement makes
faithful.  Returns the new store and whether a notification was
dispatched successfully by this attempt. -/
def sendDue (dispatchOk : Nat → Bool) (s : SentStore) (k : OccId) (now : Nat) :
    SentStore × Bool :=
  match lookupSent s k with
  | some _ => (s, false)
  | none => if dispatchOk now then (s ++ [(k, now)], true) else (s, false)

/-- Process a linearized sequence of due-occurrence attempts coming from
(possibly overlapping) scheduler ticks; returns the final store and the
log of successful notification dispatches `(occurrence, time)`. -/
def runTicks (dispatchOk : Nat → Bool) (attempts : List (OccId × Nat)) :
    SentStore × List (OccId × Nat) :=
  attempts.foldl
    (fun acc a =>
      let r := sendDue dispatchOk acc.1 a.1 a.2
      (r.1, if r.2 then acc.2 ++ [a] else acc.2))
    ([], [])

/-- Successful dispatches for one occurrence in a dispatch log. -/
def sendsFor (log : List (OccId × Nat)) (k : OccId) : List (OccId × Nat) :=
  log.filter (fun p => p.1 == k)

end Reminder

namespace Retrieval

/-- Modelled from the spec (§6): a chunk in the vector/knowledge store,
tagged with the tenant that owns it. -/
structure Chunk where
  tenant : String
  content : String
  deriving DecidableEq

/-- Modelled from the spec (§6):
`search(query, tenant_filter, top_k) → ranked chunks`.  The internal
retrieval algorithm is out of scope; it is modelled as ranking by an
arbitrary scoring function.  The mandatory contract is that
`tenant_filter` is enforced server-side: only chunks of the filtered
tenant enter the ranking. -/
def search (store : List Chunk) (score : String → Chunk → Nat)
    (query : String) (tenant_filter : String) (top_k : Nat) : List Chunk :=
  ((store.filter (fun c => c.tenant = tenant_filter)).mergeSort
      (fun a b => score query b ≤ score query a)).take top_k

end Retrieval

namespace Quiet

/-- Modelled from the spec (§4.6): a time-bound entity occurrence as the
scheduler sees it: the reminder becomes due at `trigger_at` and its
relevance window has fully elapsed at `relevance_end` (for a meeting
reminder, the meeting time); both are minutes in tenant-local time,
counting from an arbitrary midnight. -/
structure Occ where
  trigger_at : Nat
  relevance_end : Nat

/-- Modelled from the spec (§4.6): whether a tenant-local instant (in
minutes) falls within the quiet-hours window `[qs, qe)` of
minutes-of-day; the window may wrap midnight, as the default
22:00–08:00 one does. -/
def quietHours (qs qe now : Nat) : Bool :=
  let m := now % 1440
  if qs ≤ qe then decide (qs ≤ m) && decide (m < qe)
  else decide (qs ≤ m) || decide (m < qe)

/-- Modelled from the spec (§4.6): evaluation of one occurrence on one
scheduler tick.  An occurrence already sent is skipped; before
`trigger_at` it stays pending; once its relevance window has fully
elapsed it is dropped, never sent; within quiet hours it is suppressed
(not sent), to be re-evaluated on a later tick; otherwise it is
dispatched and marked sent.  Returns the new `sent_at` and whether this
tick sent the notification. -/
def tickOcc (qs qe : Nat) (o : Occ) (sent_at : Option Nat) (now : Nat) :
    Option Nat × Bool :=
  match sent_at with
  | some t => (some t, false)
  | none =>
      if now < o.trigger_at then (none, false)
      else if o.relevance_end ≤ now then (none, false)
      else if quietHours qs qe now then (none, false)
      else (some now, true)

/-- Run a sequence of scheduler ticks over one occurrence, starting
unsent; returns the final `sent_at` and the times at which a
notification was sent. -/
def runOccTicks (qs qe : Nat) (o : Occ) (ticks : List Nat) :
    Option Nat × List Nat :=
  ticks.foldl
    (fun acc now =>
      let r := tickOcc qs qe o acc.1 now
      (r.1, if r.2 then acc.2 ++ [now] else acc.2))
    (none, [])

end Quiet

namespace Chat

/-- Embedded from `frontend/src/pages/Chat.tsx`: the `Message`
interface.  The `Date` timestamp is represented as a number (epoch
milliseconds); a missing `intent` is `none`. -/
structure Message where
  id : String
  role : String
  content : String
  timestamp : Nat
  intent : Option String
  deriving DecidableEq

/-- Embedded from `frontend/src/pages/Chat.tsx`: the component state
relevant to `sendMessage`: the `messages`, `input` and `loading` React
state hooks. -/
structure ChatState where
  messages : List Message
  input : String
  loading : Bool
  deriving DecidableEq

/-- Embedded from `frontend/src/pages/Chat.tsx` (lines 144–166): one
parsed server-sent event of the `/chat` stream: `data.type` is
`status`, `result` or `error`; any other type is ignored by the
handler. -/
inductive StreamEvent where
  | statusEv (content : String)
  | resultEv (content : String) (intent : String)
  | errorEv (content : String)
  | otherEv
  deriving DecidableEq

/-- Embedded from `frontend/src/pages/Chat.tsx` (line 94):
`const messageText = text || input.trim()` — a missing or empty `text`
argument falls back to the trimmed input field. -/
def messageTextOf (text : Option String) (input : String) : String :=
  match text with
  | some t => if t = "" then input.trim else t
  | none => input.trim

/-- Embedded from `frontend/src/pages/Chat.tsx` (lines 148–166): the
stream-event handler; each branch maps over the message list, replacing
only the assistant placeholder (matched by id) and leaving every other
message unchanged. -/
def applyEvent (assistantId : String) (msgs : List Message) :
    StreamEvent → List Message
  | StreamEvent.statusEv c =>
      msgs.map (fun m =>
        if m.id = assistantId then
          { m with content := "🤖 " ++ c, intent := some "thinking" }
        else m)
  | StreamEvent.resultEv c i =>
      msgs.map (fun m =>
        if m.id = assistantId then { m with content := c, intent := some i }
        else m)
  | StreamEvent.errorEv c =>
      msgs.map (fun m =>
        if m.id = assistantId then { m with content := "❌ Ошибка: " ++ c }
        else m)
  | StreamEvent.otherEv => msgs

/-- Embedded from `frontend/src/pages/Chat.tsx` (lines 171–177): the
`catch` handler of the stream, which rewrites the placeholder to a
connection-error message. -/
def applyStreamError (assistantId : String) (msgs : List Message) :
    List Message :=
  msgs.map (fun m =>
    if m.id = assistantId then { m with content := "❌ Произошла ошибка связи." }
    else m)

/-- Embedded from `frontend/src/pages/Chat.tsx` (lines 93–181):
`sendMessage`.  The guard returns immediately when the effective
message text is empty or a request is in flight.  Otherwise the user
message and the assistant placeholder are appended, the input cleared,
and the streamed events (plus the `catch` handler when the stream
fails) each rewrite the placeholder in place; `loading` is reset in the
`finally` block.  The returned boolean records whether a network
request was issued.  `userId`/`assistantId` are the two
`Date.now()`-derived identifiers and `now` the message timestamp. -/
def sendMessage (st : ChatState) (text : Option String)
    (userId assistantId : String) (now : Nat) (events : List StreamEvent)
    (streamFailed : Bool) : ChatState × Bool :=
  let messageText := messageTextOf text st.input
  if messageText = "" ∨ st.loading = true then (st, false)
  else
    let userMessage : Message :=
      { id := userId, role := "user", content := messageText,
        timestamp := now, intent := none }
    let msgs1 := st.messages ++ [userMessage]
    let placeholder : Message :=
      { id := assistantId, role := "assistant", content := "...",
        timestamp := now, intent := some "thinking" }
    let msgs2 := msgs1 ++ [placeholder]
    let msgs3 := events.foldl (applyEvent assistantId) msgs2
    let msgs4 := if streamFailed then applyStreamError assistantId msgs3 else msgs3
    ({ messages := msgs4, input := "", loading := false }, true)

end Chat

namespace I18n

/-- Embedded from the JavaScript value model needed by
`frontend/src/context/AuthContext.tsx`: a node of the nested
`translations` table — either a string leaf or an object of named
fields.  (JavaScript string prototype properties such as `.length` are
not modelled; indexing a string yields `undefined` here.) -/
inductive JSVal where
  | str (s : String)
  | obj (fields : List (String × JSVal))

/-- Embedded from `AuthContext.tsx` (line 85): one step
`value = value?.[k]` of the optional-chaining walk; `none` plays the
role of `undefined`. -/
def indexVal (v : Option JSVal) (k : String) : Option JSVal :=
  match v with
  | none => none
  | some (JSVal.str _) => none
  | some (JSVal.obj fs) => (List.find? (fun p => p.1 = k) fs).map Prod.snd

/-- Embedded from JavaScript truthiness as used by `value || key`
(line 88): `undefined` and the empty string are falsy; every object and
non-empty string is truthy. -/
def truthy : Option JSVal → Bool
  | none => false
  | some (JSVal.str s) => decide (s ≠ "")
  | some (JSVal.obj _) => true

/-- Embedded from `AuthContext.tsx` (line 81): `key.split('.')` for a
single-character separator, implemented structurally over the string's
characters so it evaluates inside the kernel; empty segments are kept,
and an empty key yields `[""]`, exactly as JavaScript's `split` does. -/
def splitSegs (sep : Char) : List Char → List String
  | [] => [""]
  | c :: rest =>
      let r := splitSegs sep rest
      if c = sep then "" :: r
      else
        match r with
        | [] => [String.mk [c]]
        | seg :: tail => String.mk (c :: seg.data) :: tail

/-- Embedded from `AuthContext.tsx` (lines 80–89): the value reached by
splitting the key on dots and walking the table for the given language
one segment at a time with optional chaining. -/
def walkVal (table : List (String × JSVal)) (lang : String) (key : String) :
    Option JSVal :=
  (splitSegs '.' key.data).foldl indexVal
    ((List.find? (fun p => p.1 = lang) table).map Prod.snd)

/-- Embedded from `AuthContext.tsx` (lines 80–89): the translation
function `t`: `return value || key` — the walked value when truthy,
otherwise the key itself as a string. -/
def tFun (table : List (String × JSVal)) (lang : String) (key : String) :
    JSVal :=
  match walkVal table lang key with
  | some v => if truthy (some v) then v else JSVal.str key
  | none => JSVal.str key

/-- Whether a JavaScript value is a string. -/
def isStr : JSVal → Bool
  | JSVal.str _ => true
  | JSVal.obj _ => false

/-- Embedded from `frontend/src/i18n/translations.ts`: the `ru` branch
of the `translations` table. -/
def ruTable : JSVal :=
  JSVal.obj
    [("app", JSVal.obj
        [("name", JSVal.str "Цифровой Секретарь"),
         ("tagline", JSVal.str "AI-ассистент для предпринимателей Казахстана")]),
     ("nav", JSVal.obj
        [("dashboard", JSVal.str "Главная"),
         ("chat", JSVal.str "AI Чат"),
         ("tasks", JSVal.str "Задачи"),
         ("contacts", JSVal.str "Контакты"),
         ("finance", JSVal.str "Финансы"),
         ("invoices", JSVal.str "Дебиторка"),
         ("ideas", JSVal.str "Идеи"),
         ("birthdays", JSVal.str "Дни рождения"),
         ("contracts", JSVal.str "Договоры"),
         ("reports", JSVal.str "Отчёты"),
         ("groups", JSVal.str "Группы"),
         ("admin", JSVal.str "Админ"),
         ("modules", JSVal.str "Модули"),
         ("calendar", JSVal.str "Календарь"),
         ("settings", JSVal.str "Настройки"),
         ("logout", JSVal.str "Выйти")]),
     ("auth", JSVal.obj
        [("login", JSVal.str "Войти"),
         ("register", JSVal.str "Регистрация"),
         ("email", JSVal.str "Email"),
         ("password", JSVal.str "Пароль"),
         ("businessName", JSVal.str "Название бизнеса"),
         ("forgotPassword", JSVal.str "Забыли пароль?"),
         ("noAccount", JSVal.str "Нет аккаунта?"),
         ("hasAccount", JSVal.str "Уже есть аккаунт?")]),
     ("modules", JSVal.obj
        [("title", JSVal.str "Управление модулями"),
         ("description", JSVal.str "Включите или отключите функции вашего бота"),
         ("enabled", JSVal.str "Включён"),
         ("disabled", JSVal.str "Отключён")]),
     ("settings", JSVal.obj
        [("title", JSVal.str "Настройки"),
         ("telegram", JSVal.obj
            [("title", JSVal.str "Telegram Bot"),
             ("description", JSVal.str "Подключите своего Telegram бота"),
             ("token", JSVal.str "Bot Token (от @BotFather)"),
             ("connect", JSVal.str "Подключить"),
             ("disconnect", JSVal.str "Отключить"),
             ("connected", JSVal.str "Подключён"),
             ("instruction", JSVal.str "Создайте бота через @BotFather и вставьте токен")]),
         ("whatsapp", JSVal.obj
            [("title", JSVal.str "WhatsApp"),
             ("description", JSVal.str "Подключите WhatsApp для общения с клиентами"),
             ("instanceId", JSVal.str "Instance ID"),
             ("token", JSVal.str "API Token"),
             ("phone", JSVal.str "Номер телефона"),
             ("connect", JSVal.str "Подключить"),
             ("disconnect", JSVal.str "Отключить"),
             ("connected", JSVal.str "Подключён")]),
         ("language", JSVal.obj
            [("title", JSVal.str "Язык"),
             ("description", JSVal.str "Выберите язык интерфейса и бота")]),
         ("ai", JSVal.obj
            [("title", JSVal.str "AI Настройки"),
             ("description", JSVal.str "Настройки искусственного интеллекта"),
             ("enabled", JSVal.str "AI включён"),
             ("customKey", JSVal.str "Свой API ключ (опционально)")])]),
     ("dashboard", JSVal.obj
        [("welcome", JSVal.str "Добро пожаловать"),
         ("stats", JSVal.obj
            [("income", JSVal.str "Доходы"),
             ("expenses", JSVal.str "Расходы"),
             ("meetings", JSVal.str "Встречи"),
             ("contracts", JSVal.str "Договоры")]),
         ("quickActions", JSVal.str "Быстрые действия"),
         ("recentActivity", JSVal.str "Недавняя активность")]),
     ("common", JSVal.obj
        [("save", JSVal.str "Сохранить"),
         ("cancel", JSVal.str "Отмена"),
         ("delete", JSVal.str "Удалить"),
         ("edit", JSVal.str "Редактировать"),
         ("loading", JSVal.str "Загрузка..."),
         ("error", JSVal.str "Ошибка"),
         ("success", JSVal.str "Успешно")])]

/-- Embedded from `frontend/src/i18n/translations.ts`: the `kz` branch
of the `translations` table. -/
def kzTable : JSVal :=
  JSVal.obj
    [("app", JSVal.obj
        [("name", JSVal.str "Цифрлық Хатшы"),
         ("tagline", JSVal.str "Қазақстан кәсіпкерлері үшін AI-көмекші")]),
     ("nav", JSVal.obj
        [("dashboard", JSVal.str "Басты бет"),
         ("chat", JSVal.str "AI Чат"),
         ("tasks", JSVal.str "Тапсырмалар"),
         ("contacts", JSVal.str "Байланыстар"),
         ("finance", JSVal.str "Қаржы"),
         ("invoices", JSVal.str "Берешектер"),
         ("ideas", JSVal.str "Идеялар"),
         ("birthdays", JSVal.str "Туған күндер"),
         ("contracts", JSVal.str "Шарттар"),
         ("reports", JSVal.str "Есептер"),
         ("groups", JSVal.str "Топтар"),
         ("admin", JSVal.str "Админ"),
         ("modules", JSVal.str "Модульдер"),
         ("calendar", JSVal.str "Күнтізбе"),
         ("settings", JSVal.str "Баптаулар"),
         ("logout", JSVal.str "Шығу")]),
     ("auth", JSVal.obj
        [("login", JSVal.str "Кіру"),
         ("register", JSVal.str "Тіркелу"),
         ("email", JSVal.str "Email"),
         ("password", JSVal.str "Құпия сөз"),
         ("businessName", JSVal.str "Бизнес атауы"),
         ("forgotPassword", JSVal.str "Құпия сөзді ұмыттыңыз ба?"),
         ("noAccount", JSVal.str "Аккаунт жоқ па?"),
         ("hasAccount", JSVal.str "Аккаунт бар ма?")]),
     ("modules", JSVal.obj
        [("title", JSVal.str "Модульдерді басқару"),
         ("description", JSVal.str "Ботыңыздың функцияларын қосыңыз немесе өшіріңіз"),
         ("enabled", JSVal.str "Қосулы"),
         ("disabled", JSVal.str "Өшірулі")]),
     ("settings", JSVal.obj
        [("title", JSVal.str "Баптаулар"),
         ("telegram", JSVal.obj
            [("title", JSVal.str "Telegram Bot"),
             ("description", JSVal.str "Telegram ботыңызды қосыңыз"),
             ("token", JSVal.str "Bot Token (@BotFather-ден)"),
             ("connect", JSVal.str "Қосу"),
             ("disconnect", JSVal.str "Ажырату"),
             ("connected", JSVal.str "Қосылған"),
             ("instruction", JSVal.str "@BotFather арқылы бот жасап, токенді енгізіңіз")]),
         ("whatsapp", JSVal.obj
            [("title", JSVal.str "WhatsApp"),
             ("description", JSVal.str "WhatsApp қосыңыз"),
             ("instanceId", JSVal.str "Instance ID"),
             ("token", JSVal.str "API Token"),
             ("phone", JSVal.str "Телефон нөмірі"),
             ("connect", JSVal.str "Қосу"),
             ("disconnect", JSVal.str "Ажырату"),
             ("connected", JSVal.str "Қосылған")]),
         ("language", JSVal.obj
            [("title", JSVal.str "Тіл"),
             ("description", JSVal.str "Интерфейс және бот тілін таңдаңыз")]),
         ("ai", JSVal.obj
            [("title", JSVal.str "AI Баптаулар"),
             ("description", JSVal.str "Жасанды интеллект баптаулары"),
             ("enabled", JSVal.str "AI қосулы"),
             ("customKey", JSVal.str "Өз API кілті (міндетті емес)")])]),
     ("dashboard", JSVal.obj
        [("welcome", JSVal.str "Қош келдіңіз"),
         ("stats", JSVal.obj
            [("income", JSVal.str "Кірістер"),
             ("expenses", JSVal.str "Шығыстар"),
             ("meetings", JSVal.str "Кездесулер"),
             ("contracts", JSVal.str "Шарттар")]),
         ("quickActions", JSVal.str "Жылдам әрекеттер"),
         ("recentActivity", JSVal.str "Соңғы белсенділік")]),
     ("common", JSVal.obj
        [("save", JSVal.str "Сақтау"),
         ("cancel", JSVal.str "Бас тарту"),
         ("delete", JSVal.str "Жою"),
         ("edit", JSVal.str "Өңдеу"),
         ("loading", JSVal.str "Жүктелуде..."),
         ("error", JSVal.str "Қате"),
         ("success", JSVal.str "Сәтті")])]

/-- Embedded from `frontend/src/i18n/translations.ts`: the exported
`translations` constant with its `ru` and `kz` language branches. -/
def translations : List (String × JSVal) :=
  [("ru", ruTable), ("kz", kzTable)]

end I18n

namespace Runtime

theorem finishRun_steps (run : AgentRun) (st : RunStatus) (out : String) :
    (finishRun run st out).steps = run.steps := by
  unfold finishRun; split <;> rfl

theorem finishRun_status_of_running (run : AgentRun) (st : RunStatus)
    (out : String) (h : run.status = RunStatus.running) :
    (finishRun run st out).status = st := by
  unfold finishRun; rw [if_pos h]

theorem finishRun_output_of_running (run : AgentRun) (st : RunStatus)
    (out : String) (h : run.status = RunStatus.running) :
    (finishRun run st out).final_output = some out := by
  unfold finishRun; rw [if_pos h]

theorem appendStep_status (run : AgentRun) (agent : String)
    (tool : Option String) (result : String) (st : StepStatus) :
    (appendStep run agent tool result st).status = run.status := by
  unfold appendStep; split <;> rfl

theorem appendStep_output (run : AgentRun) (agent : String)
    (tool : Option String) (result : String) (st : StepStatus) :
    (appendStep run agent tool result st).final_output = run.final_output := by
  unfold appendStep; split <;> rfl

theorem appendStep_steps_of_running (run : AgentRun) (agent : String)
    (tool : Option String) (result : String) (st : StepStatus)
    (h : run.status = RunStatus.running) :
    (appendStep run agent tool result st).steps =
      run.steps ++
        [{ step_id := run.steps.length + 1, agent := agent, tool := tool,
           result := result, status := st }] := by
  unfold appendStep; rw [if_pos h]

theorem appendStep_steps_append (run : AgentRun) (agent : String)
    (tool : Option String) (result : String) (st : StepStatus) :
    ∃ t, (appendStep run agent tool result st).steps = run.steps ++ t := by
  unfold appendStep
  split
  · exact ⟨_, rfl⟩
  · exact ⟨[], (List.append_nil _).symm⟩

theorem appendStep_length_le (run : AgentRun) (agent : String)
    (tool : Option String) (result : String) (st : StepStatus) :
    (appendStep run agent tool result st).steps.length ≤ run.steps.length + 1 := by
  unfold appendStep
  split
  · simp
  · simp

theorem budgetExceededRun_steps (run : AgentRun) :
    (budgetExceededRun run).steps = run.steps := by
  unfold budgetExceededRun
  split <;> exact finishRun_steps _ _ _

theorem budgetExceededRun_status_of_running (run : AgentRun)
    (h : run.status = RunStatus.running) :
    (budgetExceededRun run).status ≠ RunStatus.running := by
  unfold budgetExceededRun
  split <;> rw [finishRun_status_of_running _ _ _ h] <;> intro hc <;> cases hc

theorem budgetExceededRun_output_of_running (run : AgentRun)
    (h : run.status = RunStatus.running) :
    (budgetExceededRun run).final_output.isSome = true := by
  unfold budgetExceededRun
  split <;> rw [finishRun_output_of_running _ _ _ h] <;> rfl

theorem budgetExceededRun_failed (run : AgentRun)
    (h : run.status = RunStatus.running)
    (hf : (budgetExceededRun run).status = RunStatus.failed) :
    hasPartialResult run.steps = false := by
  unfold budgetExceededRun at hf
  by_cases hp : hasPartialResult run.steps
  · rw [if_pos hp, finishRun_status_of_running _ _ _ h] at hf
    cases hf
  · simpa using hp

theorem runLoopAux_steps_append (env : LoopEnv) :
    ∀ (b : Nat) (q : List String) (run : AgentRun),
      ∃ t, (runLoopAux env b q run).1.steps = run.steps ++ t := by
  intro b
  induction b with
  | zero =>
    intro q run
    cases q with
    | nil =>
      refine ⟨[], ?_⟩
      simp [runLoopAux, finishRun_steps]
    | cons a rest =>
      by_cases hc : env.cancelFlag run.steps
      · refine ⟨[], ?_⟩
        simp [runLoopAux, hc, finishRun_steps]
      · refine ⟨[], ?_⟩
        simp [runLoopAux, hc, budgetExceededRun_steps]
  | succ b ih =>
    intro q run
    cases q with
    | nil =>
      refine ⟨[], ?_⟩
      simp [runLoopAux, finishRun_steps]
    | cons a rest =>
      by_cases hc : env.cancelFlag run.steps
      · refine ⟨[], ?_⟩
        simp [runLoopAux, hc, finishRun_steps]
      · cases hact : env.agentAct a run.steps with
        | finalAnswer text =>
          obtain ⟨t2, h2⟩ := appendStep_steps_append run a none text StepStatus.success
          refine ⟨t2, ?_⟩
          simp [runLoopAux, hc, hact, finishRun_steps, h2]
        | handoffTo target =>
          by_cases htg : target ∈ env.catalog
          · obtain ⟨t2, h2⟩ := appendStep_steps_append run a none
              ("handoff:" ++ target) StepStatus.success
            obtain ⟨t3, h3⟩ := ih (target :: rest)
              (appendStep run a none ("handoff:" ++ target) StepStatus.success)
            refine ⟨t2 ++ t3, ?_⟩
            simp [runLoopAux, hc, hact, htg, h3, h2]
          · obtain ⟨t2, h2⟩ := appendStep_steps_append run a none
              ("unknown handoff target: " ++ target) StepStatus.failed
            obtain ⟨t3, h3⟩ := ih rest
              (appendStep run a none ("unknown handoff target: " ++ target)
                StepStatus.failed)
            refine ⟨t2 ++ t3, ?_⟩
            simp [runLoopAux, hc, hact, htg, h3, h2]
        | toolCall tool args =>
          cases hout : env.toolExec tool args run.steps with
          | ok res =>
            obtain ⟨t2, h2⟩ := appendStep_steps_append run a (some tool) res
              StepStatus.success
            obtain ⟨t3, h3⟩ := ih rest
              (appendStep run a (some tool) res StepStatus.success)
            refine ⟨t2 ++ t3, ?_⟩
            simp [runLoopAux, hc, hact, hout, h3, h2]
          | invalidArgs =>
            obtain ⟨t2, h2⟩ := appendStep_steps_append run a (some tool)
              "InvalidArgs" StepStatus.failed
            obtain ⟨t3, h3⟩ := ih rest
              (appendStep run a (some tool) "InvalidArgs" StepStatus.failed)
            refine ⟨t2 ++ t3, ?_⟩
            simp [runLoopAux, hc, hact, hout, h3, h2]
          | timeout =>
            by_cases hcr : env.critical tool
            · obtain ⟨t2, h2⟩ := appendStep_steps_append run a (some tool)
                "ToolTimeout" StepStatus.timed_out
              refine ⟨t2, ?_⟩
              simp [runLoopAux, hc, hact, hout, hcr, finishRun_steps, h2]
            · obtain ⟨t2, h2⟩ := appendStep_steps_append run a (some tool)
                "ToolTimeout" StepStatus.timed_out
              obtain ⟨t3, h3⟩ := ih rest
                (appendStep run a (some tool) "ToolTimeout" StepStatus.timed_out)
              refine ⟨t2 ++ t3, ?_⟩
              simp [runLoopAux, hc, hact, hout, hcr, h3, h2]
          | failure =>
            by_cases hcr : env.critical tool
            · obtain ⟨t2, h2⟩ := appendStep_steps_append run a (some tool)
                "ToolFailure" StepStatus.failed
              refine ⟨t2, ?_⟩
              simp [runLoopAux, hc, hact, hout, hcr, finishRun_steps, h2]
            · obtain ⟨t2, h2⟩ := appendStep_steps_append run a (some tool)
                "ToolFailure" StepStatus.failed
              obtain ⟨t3, h3⟩ := ih rest
                (appendStep run a (some tool) "ToolFailure" StepStatus.failed)
              refine ⟨t2 ++ t3, ?_⟩
              simp [runLoopAux, hc, hact, hout, hcr, h3, h2]

theorem contiguous_append (s : List Step) (agent : String)
    (tool : Option String) (result : String) (st : StepStatus)
    (h : Contiguous s) :
    Contiguous (s ++
      [{ step_id := s.length + 1, agent := agent, tool := tool,
         result := result, status := st }]) := by
  intro i hi
  simp only [List.length_append, List.length_singleton] at hi
  by_cases hlt : i < s.length
  · rw [List.getElem_append_left hlt]
    exact h i hlt
  · have hieq : i = s.length := by omega
    subst hieq
    rw [List.getElem_concat_length]
    rfl

theorem runLoopAux_nil (env : LoopEnv) (b : Nat) (run : AgentRun) :
    runLoopAux env b [] run =
      (finishRun run RunStatus.completed (synthesizeOutput run.steps),
       [run, finishRun run RunStatus.completed (synthesizeOutput run.steps)]) := by
  cases b <;> simp [runLoopAux]

theorem runLoopAux_cancel (env : LoopEnv) (b : Nat) (a : String)
    (rest : List String) (run : AgentRun)
    (hc : env.cancelFlag run.steps = true) :
    runLoopAux env b (a :: rest) run =
      (finishRun run RunStatus.cancelled "Cancelled.",
       [run, finishRun run RunStatus.cancelled "Cancelled."]) := by
  cases b <;> simp [runLoopAux, hc]

theorem runLoopAux_budget (env : LoopEnv) (a : String) (rest : List String)
    (run : AgentRun) (hc : ¬env.cancelFlag run.steps = true) :
    runLoopAux env 0 (a :: rest) run =
      (budgetExceededRun run, [run, budgetExceededRun run]) := by
  simp [runLoopAux, hc]

theorem runLoopAux_final (env : LoopEnv) (b : Nat) (a : String)
    (rest : List String) (run : AgentRun) (text : String)
    (hc : ¬env.cancelFlag run.steps = true)
    (hact : env.agentAct a run.steps = AgentAction.finalAnswer text) :
    runLoopAux env (b + 1) (a :: rest) run =
      (finishRun (appendStep run a none text StepStatus.success)
         RunStatus.completed text,
       [run, appendStep run a none text StepStatus.success,
        finishRun (appendStep run a none text StepStatus.success)
          RunStatus.completed text]) := by
  simp [runLoopAux, hc, hact]

theorem runLoopAux_handoff_known (env : LoopEnv) (b : Nat) (a : String)
    (rest : List String) (run : AgentRun) (target : String)
    (hc : ¬env.cancelFlag run.steps = true)
    (hact : env.agentAct a run.steps = AgentAction.handoffTo target)
    (htg : target ∈ env.catalog) :
    runLoopAux env (b + 1) (a :: rest) run =
      ((runLoopAux env b (target :: rest)
          (appendStep run a none ("handoff:" ++ target) StepStatus.success)).1,
       run :: (runLoopAux env b (target :: rest)
          (appendStep run a none ("handoff:" ++ target) StepStatus.success)).2) := by
  simp [runLoopAux, hc, hact, htg]

theorem runLoopAux_handoff_unknown (env : LoopEnv) (b : Nat) (a : String)
    (rest : List String) (run : AgentRun) (target : String)
    (hc : ¬env.cancelFlag run.steps = true)
    (hact : env.agentAct a run.steps = AgentAction.handoffTo target)
    (htg : ¬target ∈ env.catalog) :
    runLoopAux env (b + 1) (a :: rest) run =
      ((runLoopAux env b rest
          (appendStep run a none ("unknown handoff target: " ++ target)
            StepStatus.failed)).1,
       run :: (runLoopAux env b rest
          (appendStep run a none ("unknown handoff target: " ++ target)
            StepStatus.failed)).2) := by
  simp [runLoopAux, hc, hact, htg]

theorem runLoopAux_tool_ok (env : LoopEnv) (b : Nat) (a : String)
    (rest : List String) (run : AgentRun) (tool args res : String)
    (hc : ¬env.cancelFlag run.steps = true)
    (hact : env.agentAct a run.steps = AgentAction.toolCall tool args)
    (hout : env.toolExec tool args run.steps = ToolOutcome.ok res) :
    runLoopAux env (b + 1) (a :: rest) run =
      ((runLoopAux env b rest
          (appendStep run a (some tool) res StepStatus.success)).1,
       run :: (runLoopAux env b rest
          (appendStep run a (some tool) res StepStatus.success)).2) := by
  simp [runLoopAux, hc, hact, hout]

theorem runLoopAux_tool_invalid (env : LoopEnv) (b : Nat) (a : String)
    (rest : List String) (run : AgentRun) (tool args : String)
    (hc : ¬env.cancelFlag run.steps = true)
    (hact : env.agentAct a run.steps = AgentAction.toolCall tool args)
    (hout : env.toolExec tool args run.steps = ToolOutcome.invalidArgs) :
    runLoopAux env (b + 1) (a :: rest) run =
      ((runLoopAux env b rest
          (appendStep run a (some tool) "InvalidArgs" StepStatus.failed)).1,
       run :: (runLoopAux env b rest
          (appendStep run a (some tool) "InvalidArgs" StepStatus.failed)).2) := by
  simp [runLoopAux, hc, hact, hout]

theorem runLoopAux_tool_timeout_critical (env : LoopEnv) (b : Nat) (a : String)
    (rest : List String) (run : AgentRun) (tool args : String)
    (hc : ¬env.cancelFlag run.steps = true)
    (hact : env.agentAct a run.steps = AgentAction.toolCall tool args)
    (hout : env.toolExec tool args run.steps = ToolOutcome.timeout)
    (hcr : env.critical tool = true) :
    runLoopAux env (b + 1) (a :: rest) run =
      (finishRun (appendStep run a (some tool) "ToolTimeout" StepStatus.timed_out)
         RunStatus.failed ("A critical tool timed out: " ++ tool),
       [run, appendStep run a (some tool) "ToolTimeout" StepStatus.timed_out,
        finishRun (appendStep run a (some tool) "ToolTimeout" StepStatus.timed_out)
          RunStatus.failed ("A critical tool timed out: " ++ tool)]) := by
  simp [runLoopAux, hc, hact, hout, hcr]

theorem runLoopAux_tool_timeout_rec (env : LoopEnv) (b : Nat) (a : String)
    (rest : List String) (run : AgentRun) (tool args : String)
    (hc : ¬env.cancelFlag run.steps = true)
    (hact : env.agentAct a run.steps = AgentAction.toolCall tool args)
    (hout : env.toolExec tool args run.steps = ToolOutcome.timeout)
    (hcr : ¬env.critical tool = true) :
    runLoopAux env (b + 1) (a :: rest) run =
      ((runLoopAux env b rest
          (appendStep run a (some tool) "ToolTimeout" StepStatus.timed_out)).1,
       run :: (runLoopAux env b rest
          (appendStep run a (some tool) "ToolTimeout" StepStatus.timed_out)).2) := by
  simp [runLoopAux, hc, hact, hout, hcr]

theorem runLoopAux_tool_failure_critical (env : LoopEnv) (b : Nat) (a : String)
    (rest : List String) (run : AgentRun) (tool args : String)
    (hc : ¬env.cancelFlag run.steps = true)
    (hact : env.agentAct a run.steps = AgentAction.toolCall tool args)
    (hout : env.toolExec tool args run.steps = ToolOutcome.failure)
    (hcr : env.critical tool = true) :
    runLoopAux env (b + 1) (a :: rest) run =
      (finishRun (appendStep run a (some tool) "ToolFailure" StepStatus.failed)
         RunStatus.failed ("A critical tool failed: " ++ tool),
       [run, appendStep run a (some tool) "ToolFailure" StepStatus.failed,
        finishRun (appendStep run a (some tool) "ToolFailure" StepStatus.failed)
          RunStatus.failed ("A critical tool failed: " ++ tool)]) := by
  simp [runLoopAux, hc, hact, hout, hcr]

theorem runLoopAux_tool_failure_rec (env : LoopEnv) (b : Nat) (a : String)
    (rest : List String) (run : AgentRun) (tool args : String)
    (hc : ¬env.cancelFlag run.steps = true)
    (hact : env.agentAct a run.steps = AgentAction.toolCall tool args)
    (hout : env.toolExec tool args run.steps = ToolOutcome.failure)
    (hcr : ¬env.critical tool = true) :
    runLoopAux env (b + 1) (a :: rest) run =
      ((runLoopAux env b rest
          (appendStep run a (some tool) "ToolFailure" StepStatus.failed)).1,
       run :: (runLoopAux env b rest
          (appendStep run a (some tool) "ToolFailure" StepStatus.failed)).2) := by
  simp [runLoopAux, hc, hact, hout, hcr]

theorem runLoopAux_master (env : LoopEnv) :
    ∀ (b : Nat) (q : List String) (run : AgentRun),
      run.status = RunStatus.running → run.final_output = none →
      ((runLoopAux env b q run).1.status ≠ RunStatus.running ∧
       (runLoopAux env b q run).1.final_output.isSome = true ∧
       (runLoopAux env b q run).2.head? = some run ∧
       (∃ pre, (runLoopAux env b q run).2 = pre ++ [(runLoopAux env b q run).1] ∧
          ∀ x ∈ pre, x.status = RunStatus.running ∧ x.final_output = none) ∧
       (Contiguous run.steps → Contiguous (runLoopAux env b q run).1.steps) ∧
       ((runLoopAux env b q run).1.status = RunStatus.failed →
          (∃ s ∈ (runLoopAux env b q run).1.steps, ∃ tl, s.tool = some tl ∧
             env.critical tl = true ∧ s.status ≠ StepStatus.success) ∨
          hasPartialResult (runLoopAux env b q run).1.steps = false)) := by
  have shapeA : ∀ (run : AgentRun) (st : RunStatus) (out : String),
      run.status = RunStatus.running → run.final_output = none →
      st ≠ RunStatus.running → st ≠ RunStatus.failed →
      ((finishRun run st out).status ≠ RunStatus.running ∧
       (finishRun run st out).final_output.isSome = true ∧
       ([run, finishRun run st out] : List AgentRun).head? = some run ∧
       (∃ pre, ([run, finishRun run st out] : List AgentRun) =
            pre ++ [finishRun run st out] ∧
          ∀ x ∈ pre, x.status = RunStatus.running ∧ x.final_output = none) ∧
       (Contiguous run.steps → Contiguous (finishRun run st out).steps) ∧
       ((finishRun run st out).status = RunStatus.failed →
          (∃ s ∈ (finishRun run st out).steps, ∃ tl, s.tool = some tl ∧
             env.critical tl = true ∧ s.status ≠ StepStatus.success) ∨
          hasPartialResult (finishRun run st out).steps = false)) := by
    intro run st out h1 h2 hne hnf
    refine ⟨?_, ?_, rfl, ⟨[run], rfl, ?_⟩, ?_, ?_⟩
    · rw [finishRun_status_of_running _ _ _ h1]; exact hne
    · rw [finishRun_output_of_running _ _ _ h1]; rfl
    · intro x hx
      rw [List.mem_singleton] at hx
      subst hx
      exact ⟨h1, h2⟩
    · intro hcont
      rw [finishRun_steps]
      exact hcont
    · intro hf
      rw [finishRun_status_of_running _ _ _ h1] at hf
      exact absurd hf hnf
  intro b
  induction b with
  | zero =>
    intro q run h1 h2
    cases q with
    | nil =>
      rw [runLoopAux_nil]
      exact shapeA run RunStatus.completed _ h1 h2 (by decide) (by decide)
    | cons a rest =>
      by_cases hc : env.cancelFlag run.steps = true
      · rw [runLoopAux_cancel env 0 a rest run hc]
        exact shapeA run RunStatus.cancelled _ h1 h2 (by decide) (by decide)
      · rw [runLoopAux_budget env a rest run hc]
        refine ⟨budgetExceededRun_status_of_running run h1,
          budgetExceededRun_output_of_running run h1, rfl,
          ⟨[run], rfl, ?_⟩, ?_, ?_⟩
        · intro x hx
          rw [List.mem_singleton] at hx
          subst hx
          exact ⟨h1, h2⟩
        · intro hcont
          rw [budgetExceededRun_steps]
          exact hcont
        · intro hf
          rw [budgetExceededRun_steps]
          exact Or.inr (budgetExceededRun_failed run h1 hf)
  | succ b ih =>
    intro q run h1 h2
    cases q with
    | nil =>
      rw [runLoopAux_nil]
      exact shapeA run RunStatus.completed _ h1 h2 (by decide) (by decide)
    | cons a rest =>
      by_cases hc : env.cancelFlag run.steps = true
      · rw [runLoopAux_cancel env (b + 1) a rest run hc]
        exact shapeA run RunStatus.cancelled _ h1 h2 (by decide) (by decide)
      · cases hact : env.agentAct a run.steps with
        | finalAnswer text =>
          rw [runLoopAux_final env b a rest run text hc hact]
          have hst2 : (appendStep run a none text StepStatus.success).status =
              RunStatus.running := by rw [appendStep_status]; exact h1
          have hout2 : (appendStep run a none text StepStatus.success).final_output =
              none := by rw [appendStep_output]; exact h2
          refine ⟨?_, ?_, rfl, ⟨[run, appendStep run a none text StepStatus.success],
            rfl, ?_⟩, ?_, ?_⟩
          · rw [finishRun_status_of_running _ _ _ hst2]; decide
          · rw [finishRun_output_of_running _ _ _ hst2]; rfl
          · intro x hx
            rcases List.mem_cons.mp hx with hx1 | hx2
            · subst hx1; exact ⟨h1, h2⟩
            · rw [List.mem_singleton] at hx2
              subst hx2
              exact ⟨hst2, hout2⟩
          · intro hcont
            rw [finishRun_steps, appendStep_steps_of_running _ _ _ _ _ h1]
            exact contiguous_append _ _ _ _ _ hcont
          · intro hf
            rw [finishRun_status_of_running _ _ _ hst2] at hf
            cases hf
        | handoffTo target =>
          by_cases htg : target ∈ env.catalog
          · rw [runLoopAux_handoff_known env b a rest run target hc hact htg]
            have hst2 : (appendStep run a none ("handoff:" ++ target)
                StepStatus.success).status = RunStatus.running := by
              rw [appendStep_status]; exact h1
            have hout2 : (appendStep run a none ("handoff:" ++ target)
                StepStatus.success).final_output = none := by
              rw [appendStep_output]; exact h2
            obtain ⟨ihs, iho, ihh, ⟨pre2, hpre2, hpre2r⟩, ihc, ihf⟩ :=
              ih (target :: rest) _ hst2 hout2
            refine ⟨ihs, iho, rfl, ⟨run :: pre2, ?_, ?_⟩, ?_, ihf⟩
            · rw [List.cons_append, hpre2]
            · intro x hx
              rcases List.mem_cons.mp hx with hx1 | hx2
              · subst hx1; exact ⟨h1, h2⟩
              · exact hpre2r x hx2
            · intro hcont
              refine ihc ?_
              rw [appendStep_steps_of_running _ _ _ _ _ h1]
              exact contiguous_append _ _ _ _ _ hcont
          · rw [runLoopAux_handoff_unknown env b a rest run target hc hact htg]
            have hst2 : (appendStep run a none
                ("unknown handoff target: " ++ target)
                StepStatus.failed).status = RunStatus.running := by
              rw [appendStep_status]; exact h1
            have hout2 : (appendStep run a none
                ("unknown handoff target: " ++ target)
                StepStatus.failed).final_output = none := by
              rw [appendStep_output]; exact h2
            obtain ⟨ihs, iho, ihh, ⟨pre2, hpre2, hpre2r⟩, ihc, ihf⟩ :=
              ih rest _ hst2 hout2
            refine ⟨ihs, iho, rfl, ⟨run :: pre2, ?_, ?_⟩, ?_, ihf⟩
            · rw [List.cons_append, hpre2]
            · intro x hx
              rcases List.mem_cons.mp hx with hx1 | hx2
              · subst hx1; exact ⟨h1, h2⟩
              · exact hpre2r x hx2
            · intro hcont
              refine ihc ?_
              rw [appendStep_steps_of_running _ _ _ _ _ h1]
              exact contiguous_append _ _ _ _ _ hcont
        | toolCall tool args =>
          cases hout : env.toolExec tool args run.steps with
          | ok res =>
            rw [runLoopAux_tool_ok env b a rest run tool args res hc hact hout]
            have hst2 : (appendStep run a (some tool) res
                StepStatus.success).status = RunStatus.running := by
              rw [appendStep_status]; exact h1
            have hout2 : (appendStep run a (some tool) res
                StepStatus.success).final_output = none := by
              rw [appendStep_output]; exact h2
            obtain ⟨ihs, iho, ihh, ⟨pre2, hpre2, hpre2r⟩, ihc, ihf⟩ :=
              ih rest _ hst2 hout2
            refine ⟨ihs, iho, rfl, ⟨run :: pre2, ?_, ?_⟩, ?_, ihf⟩
            · rw [List.cons_append, hpre2]
            · intro x hx
              rcases List.mem_cons.mp hx with hx1 | hx2
              · subst hx1; exact ⟨h1, h2⟩
              · exact hpre2r x hx2
            · intro hcont
              refine ihc ?_
              rw [appendStep_steps_of_running _ _ _ _ _ h1]
              exact contiguous_append _ _ _ _ _ hcont
          | invalidArgs =>
            rw [runLoopAux_tool_invalid env b a rest run tool args hc hact hout]
            have hst2 : (appendStep run a (some tool) "InvalidArgs"
                StepStatus.failed).status = RunStatus.running := by
              rw [appendStep_status]; exact h1
            have hout2 : (appendStep run a (some tool) "InvalidArgs"
                StepStatus.failed).final_output = none := by
              rw [appendStep_output]; exact h2
            obtain ⟨ihs, iho, ihh, ⟨pre2, hpre2, hpre2r⟩, ihc, ihf⟩ :=
              ih rest _ hst2 hout2
            refine ⟨ihs, iho, rfl, ⟨run :: pre2, ?_, ?_⟩, ?_, ihf⟩
            · rw [List.cons_append, hpre2]
            · intro x hx
              rcases List.mem_cons.mp hx with hx1 | hx2
              · subst hx1; exact ⟨h1, h2⟩
              · exact hpre2r x hx2
            · intro hcont
              refine ihc ?_
              rw [appendStep_steps_of_running _ _ _ _ _ h1]
              exact contiguous_append _ _ _ _ _ hcont
          | timeout =>
            by_cases hcr : env.critical tool = true
            · rw [runLoopAux_tool_timeout_critical env b a rest run tool args
                hc hact hout hcr]
              have hst2 : (appendStep run a (some tool) "ToolTimeout"
                  StepStatus.timed_out).status = RunStatus.running := by
                rw [appendStep_status]; exact h1
              have hout2 : (appendStep run a (some tool) "ToolTimeout"
                  StepStatus.timed_out).final_output = none := by
                rw [appendStep_output]; exact h2
              refine ⟨?_, ?_, rfl,
                ⟨[run, appendStep run a (some tool) "ToolTimeout"
                    StepStatus.timed_out], rfl, ?_⟩, ?_, ?_⟩
              · rw [finishRun_status_of_running _ _ _ hst2]; decide
              · rw [finishRun_output_of_running _ _ _ hst2]; rfl
              · intro x hx
                rcases List.mem_cons.mp hx with hx1 | hx2
                · subst hx1; exact ⟨h1, h2⟩
                · rw [List.mem_singleton] at hx2
                  subst hx2
                  exact ⟨hst2, hout2⟩
              · intro hcont
                rw [finishRun_steps, appendStep_steps_of_running _ _ _ _ _ h1]
                exact contiguous_append _ _ _ _ _ hcont
              · intro _
                refine Or.inl ?_
                rw [finishRun_steps, appendStep_steps_of_running _ _ _ _ _ h1]
                refine ⟨_, List.mem_append_right _ (List.mem_singleton.mpr rfl),
                  tool, rfl, hcr, ?_⟩
                intro hx
                exact StepStatus.noConfusion hx
            · rw [runLoopAux_tool_timeout_rec env b a rest run tool args
                hc hact hout hcr]
              have hst2 : (appendStep run a (some tool) "ToolTimeout"
                  StepStatus.timed_out).status = RunStatus.running := by
                rw [appendStep_status]; exact h1
              have hout2 : (appendStep run a (some tool) "ToolTimeout"
                  StepStatus.timed_out).final_output = none := by
                rw [appendStep_output]; exact h2
              obtain ⟨ihs, iho, ihh, ⟨pre2, hpre2, hpre2r⟩, ihc, ihf⟩ :=
                ih rest _ hst2 hout2
              refine ⟨ihs, iho, rfl, ⟨run :: pre2, ?_, ?_⟩, ?_, ihf⟩
              · rw [List.cons_append, hpre2]
              · intro x hx
                rcases List.mem_cons.mp hx with hx1 | hx2
                · subst hx1; exact ⟨h1, h2⟩
                · exact hpre2r x hx2
              · intro hcont
                refine ihc ?_
                rw [appendStep_steps_of_running _ _ _ _ _ h1]
                exact contiguous_append _ _ _ _ _ hcont
          | failure =>
            by_cases hcr : env.critical tool = true
            · rw [runLoopAux_tool_failure_critical env b a rest run tool args
                hc hact hout hcr]
              have hst2 : (appendStep run a (some tool) "ToolFailure"
                  StepStatus.failed).status = RunStatus.running := by
                rw [appendStep_status]; exact h1
              have hout2 : (appendStep run a (some tool) "ToolFailure"
                  StepStatus.failed).final_output = none := by
                rw [appendStep_output]; exact h2
              refine ⟨?_, ?_, rfl,
                ⟨[run, appendStep run a (some tool) "ToolFailure"
                    StepStatus.failed], rfl, ?_⟩, ?_, ?_⟩
              · rw [finishRun_status_of_running _ _ _ hst2]; decide
              · rw [finishRun_output_of_running _ _ _ hst2]; rfl
              · intro x hx
                rcases List.mem_cons.mp hx with hx1 | hx2
                · subst hx1; exact ⟨h1, h2⟩
                · rw [List.mem_singleton] at hx2
                  subst hx2
                  exact ⟨hst2, hout2⟩
              · intro hcont
                rw [finishRun_steps, appendStep_steps_of_running _ _ _ _ _ h1]
                exact contiguous_append _ _ _ _ _ hcont
              · intro _
                refine Or.inl ?_
                rw [finishRun_steps, appendStep_steps_of_running _ _ _ _ _ h1]
                refine ⟨_, List.mem_append_right _ (List.mem_singleton.mpr rfl),
                  tool, rfl, hcr, ?_⟩
                intro hx
                exact StepStatus.noConfusion hx
            · rw [runLoopAux_tool_failure_rec env b a rest run tool args
                hc hact hout hcr]
              have hst2 : (appendStep run a (some tool) "ToolFailure"
                  StepStatus.failed).status = RunStatus.running := by
                rw [appendStep_status]; exact h1
              have hout2 : (appendStep run a (some tool) "ToolFailure"
                  StepStatus.failed).final_output = none := by
                rw [appendStep_output]; exact h2
              obtain ⟨ihs, iho, ihh, ⟨pre2, hpre2, hpre2r⟩, ihc, ihf⟩ :=
                ih rest _ hst2 hout2
              refine ⟨ihs, iho, rfl, ⟨run :: pre2, ?_, ?_⟩, ?_, ihf⟩
              · rw [List.cons_append, hpre2]
              · intro x hx
                rcases List.mem_cons.mp hx with hx1 | hx2
                · subst hx1; exact ⟨h1, h2⟩
                · exact hpre2r x hx2
              · intro hcont
                refine ihc ?_
                rw [appendStep_steps_of_running _ _ _ _ _ h1]
                exact contiguous_append _ _ _ _ _ hcont

theorem runLoopAux_length (env : LoopEnv) :
    ∀ (b : Nat) (q : List String) (run : AgentRun),
      (runLoopAux env b q run).1.steps.length ≤ run.steps.length + b := by
  intro b
  induction b with
  | zero =>
    intro q run
    cases q with
    | nil =>
      rw [runLoopAux_nil]
      simp [finishRun_steps]
    | cons a rest =>
      by_cases hc : env.cancelFlag run.steps = true
      · rw [runLoopAux_cancel env 0 a rest run hc]
        simp [finishRun_steps]
      · rw [runLoopAux_budget env a rest run hc]
        simp [budgetExceededRun_steps]
  | succ b ih =>
    intro q run
    cases q with
    | nil =>
      rw [runLoopAux_nil]
      simp [finishRun_steps]
    | cons a rest =>
      by_cases hc : env.cancelFlag run.steps = true
      · rw [runLoopAux_cancel env (b + 1) a rest run hc]
        simp [finishRun_steps]
      · cases hact : env.agentAct a run.steps with
        | finalAnswer text =>
          rw [runLoopAux_final env b a rest run text hc hact]
          rw [finishRun_steps]
          calc (appendStep run a none text StepStatus.success).steps.length
              ≤ run.steps.length + 1 := appendStep_length_le _ _ _ _ _
            _ ≤ run.steps.length + (b + 1) := by omega
        | handoffTo target =>
          by_cases htg : target ∈ env.catalog
          · rw [runLoopAux_handoff_known env b a rest run target hc hact htg]
            calc (runLoopAux env b (target :: rest)
                  (appendStep run a none ("handoff:" ++ target)
                    StepStatus.success)).1.steps.length
                ≤ (appendStep run a none ("handoff:" ++ target)
                    StepStatus.success).steps.length + b := ih _ _
              _ ≤ (run.steps.length + 1) + b := by
                  have := appendStep_length_le run a none ("handoff:" ++ target)
                    StepStatus.success
                  omega
              _ = run.steps.length + (b + 1) := by omega
          · rw [runLoopAux_handoff_unknown env b a rest run target hc hact htg]
            calc (runLoopAux env b rest
                  (appendStep run a none ("unknown handoff target: " ++ target)
                    StepStatus.failed)).1.steps.length
                ≤ (appendStep run a none ("unknown handoff target: " ++ target)
                    StepStatus.failed).steps.length + b := ih _ _
              _ ≤ (run.steps.length + 1) + b := by
                  have := appendStep_length_le run a none
                    ("unknown handoff target: " ++ target) StepStatus.failed
                  omega
              _ = run.steps.length + (b + 1) := by omega
        | toolCall tool args =>
          cases hout : env.toolExec tool args run.steps with
          | ok res =>
            rw [runLoopAux_tool_ok env b a rest run tool args res hc hact hout]
            calc (runLoopAux env b rest
                  (appendStep run a (some tool) res
                    StepStatus.success)).1.steps.length
                ≤ (appendStep run a (some tool) res
                    StepStatus.success).steps.length + b := ih _ _
              _ ≤ (run.steps.length + 1) + b := by
                  have := appendStep_length_le run a (some tool) res
                    StepStatus.success
                  omega
              _ = run.steps.length + (b + 1) := by omega
          | invalidArgs =>
            rw [runLoopAux_tool_invalid env b a rest run tool args hc hact hout]
            calc (runLoopAux env b rest
                  (appendStep run a (some tool) "InvalidArgs"
                    StepStatus.failed)).1.steps.length
                ≤ (appendStep run a (some tool) "InvalidArgs"
                    StepStatus.failed).steps.length + b := ih _ _
              _ ≤ (run.steps.length + 1) + b := by
                  have := appendStep_length_le run a (some tool) "InvalidArgs"
                    StepStatus.failed
                  omega
              _ = run.steps.length + (b + 1) := by omega
          | timeout =>
            by_cases hcr : env.critical tool = true
            · rw [runLoopAux_tool_timeout_critical env b a rest run tool args
                hc hact hout hcr]
              rw [finishRun_steps]
              calc (appendStep run a (some tool) "ToolTimeout"
                    StepStatus.timed_out).steps.length
                  ≤ run.steps.length + 1 := appendStep_length_le _ _ _ _ _
                _ ≤ run.steps.length + (b + 1) := by omega
            · rw [runLoopAux_tool_timeout_rec env b a rest run tool args
                hc hact hout hcr]
              calc (runLoopAux env b rest
                    (appendStep run a (some tool) "ToolTimeout"
                      StepStatus.timed_out)).1.steps.length
                  ≤ (appendStep run a (some tool) "ToolTimeout"
                      StepStatus.timed_out).steps.length + b := ih _ _
                _ ≤ (run.steps.length + 1) + b := by
                    have := appendStep_length_le run a (some tool) "ToolTimeout"
                      StepStatus.timed_out
                    omega
                _ = run.steps.length + (b + 1) := by omega
          | failure =>
            by_cases hcr : env.critical tool = true
            · rw [runLoopAux_tool_failure_critical env b a rest run tool args
                hc hact hout hcr]
              rw [finishRun_steps]
              calc (appendStep run a (some tool) "ToolFailure"
                    StepStatus.failed).steps.length
                  ≤ run.steps.length + 1 := appendStep_length_le _ _ _ _ _
                _ ≤ run.steps.length + (b + 1) := by omega
            · rw [runLoopAux_tool_failure_rec env b a rest run tool args
                hc hact hout hcr]
              calc (runLoopAux env b rest
                    (appendStep run a (some tool) "ToolFailure"
                      StepStatus.failed)).1.steps.length
                  ≤ (appendStep run a (some tool) "ToolFailure"
                      StepStatus.failed).steps.length + b := ih _ _
                _ ≤ (run.steps.length + 1) + b := by
                    have := appendStep_length_le run a (some tool) "ToolFailure"
                      StepStatus.failed
                    omega
                _ = run.steps.length + (b + 1) := by omega

theorem contiguous_nil : Contiguous [] := by
  intro i h
  simp at h

/-- C1: for every run of the Execution Loop the loop terminates —
`runLoop` is a total function by construction, its recursion bounded
exactly by the spec's hop counter — and every AgentRun it produces has
`len(steps) ≤ max_hops` and has left the `running` state, for every
environment and every Router candidate list, in particular when the
Router proposes more candidates than the hop budget allows. -/
theorem c1_hop_budget_bound (env : LoopEnv) (candidates : List String) :
    (runLoop env candidates).1.steps.length ≤ env.maxHops ∧
    (runLoop env candidates).1.status ≠ RunStatus.running := by
  constructor
  · have h := runLoopAux_length env env.maxHops candidates initRun
    simpa [runLoop, initRun] using h
  · exact (runLoopAux_master env env.maxHops candidates initRun rfl rfl).1

/-- C5: for every AgentRun produced by the Execution Loop, status is
monotonic: in the trace of run snapshots, every snapshot before the
final one is `running` (with no final_output), and the final snapshot
is the single terminal one — so the only transitions are
running → {completed, failed, cancelled}, there is no transition out of
a terminal status, at most one terminal status is ever recorded, and
`final_output` is present exactly when status ≠ running. -/
theorem c5_status_monotonic (env : LoopEnv) (candidates : List String) :
    (runLoop env candidates).2.head? = some initRun ∧
    (∃ pre, (runLoop env candidates).2 = pre ++ [(runLoop env candidates).1] ∧
       ∀ x ∈ pre, x.status = RunStatus.running ∧ x.final_output = none) ∧
    (runLoop env candidates).1.status ≠ RunStatus.running ∧
    (runLoop env candidates).1.final_output.isSome = true ∧
    (∀ x ∈ (runLoop env candidates).2,
       x.final_output.isSome = true ↔ x.status ≠ RunStatus.running) := by
  obtain ⟨hst, hout, hhead, ⟨pre, hpre, hprer⟩, _, _⟩ :=
    runLoopAux_master env env.maxHops candidates initRun rfl rfl
  refine ⟨hhead, ⟨pre, hpre, hprer⟩, hst, hout, ?_⟩
  intro x hx
  simp only [runLoop] at hx ⊢
  rw [hpre] at hx
  rcases List.mem_append.mp hx with hx1 | hx2
  · obtain ⟨hxs, hxo⟩ := hprer x hx1
    rw [hxs, hxo]
    simp
  · rw [List.mem_singleton] at hx2
    subst hx2
    rw [hout]
    simp [hst]

/-- C5 witness: on a concrete environment whose first agent answers
immediately, the final run is a member of its own trace and satisfies
the final-output/terminal-status equivalence. -/
theorem c5_status_monotonic_witness :
    (runLoop simpleFinalEnv ["chief"]).1 ∈ (runLoop simpleFinalEnv ["chief"]).2 ∧
    ((runLoop simpleFinalEnv ["chief"]).1.final_output.isSome = true ↔
       (runLoop simpleFinalEnv ["chief"]).1.status ≠ RunStatus.running) :=
  ⟨by decide,
   (c5_status_monotonic simpleFinalEnv ["chief"]).2.2.2.2 _ (by decide)⟩

/-- C6: for every AgentRun with N steps the steps sequence is contiguous
and 1-based (`steps[i].step_id = i+1` for all `i < N`, so exactly N
records with no gaps), and no Step is appended after the run's status
becomes non-running: every trace snapshot with a non-running status
already carries the final steps list. -/
theorem c6_steps_contiguous (env : LoopEnv) (candidates : List String) :
    Contiguous (runLoop env candidates).1.steps ∧
    (∀ x ∈ (runLoop env candidates).2, x.status ≠ RunStatus.running →
       x.steps = (runLoop env candidates).1.steps) := by
  obtain ⟨_, _, _, ⟨pre, hpre, hprer⟩, hcont, _⟩ :=
    runLoopAux_master env env.maxHops candidates initRun rfl rfl
  constructor
  · exact hcont contiguous_nil
  · intro x hx hxs
    simp only [runLoop] at hx ⊢
    rw [hpre] at hx
    rcases List.mem_append.mp hx with hx1 | hx2
    · exact absurd (hprer x hx1).1 hxs
    · rw [List.mem_singleton] at hx2
      rw [hx2]

/-- C6 witness: on a concrete run with one step, the first step has
`step_id = 1`. -/
theorem c6_steps_contiguous_witness :
    ((runLoop simpleFinalEnv ["chief"]).1.steps.getD 0 defaultStep).step_id = 1 := by
  have h := (c6_steps_contiguous simpleFinalEnv ["chief"]).1 0 (by decide)
  rw [List.getD_eq_getElem]
  exact h

/-- C7 counterexample: in an environment with no critical tools and no
classification failure (agents only ever hand off, which the spec's
Router contract never turns into an abort), the run still ends with
`status = failed` — the hop budget is exhausted with no partial result.
Every step of the failed run is a pure handoff (`tool = none`), so the
failure was set neither by `ClassificationError` exhaustion nor by a
critical-tool failure, refuting the claim as stated. -/
theorem c7_failed_only_critical_counterexample :
    (runLoop handoffOnlyEnv ["chief"]).1.status = RunStatus.failed ∧
    ((runLoop handoffOnlyEnv ["chief"]).1.steps.all
        (fun s => s.tool == none)) = true := by
  constructor
  · decide
  · decide

/-- C7 (amended): `status=failed` is set only by the failure or timeout
of a tool declared critical in the registry, or by hop-budget
exhaustion with no partial result; every recoverable error
(`InvalidArgs`, non-critical `ToolTimeout`, `ToolFailure`) is absorbed
into a degraded `status=completed` response, and failure of a
non-critical tool does not abort subsequent plan steps: with plan
[Knowledge, Calendar] where the non-critical Knowledge tool fails, the
Calendar step still executes and succeeds, the run ends completed, and
the final output names the failed `deep_search` capability. -/
theorem c7_failure_propagation_amended (env : LoopEnv)
    (candidates : List String) :
    ((runLoop env candidates).1.status = RunStatus.failed →
      (∃ s ∈ (runLoop env candidates).1.steps, ∃ tl, s.tool = some tl ∧
         env.critical tl = true ∧ s.status ≠ StepStatus.success) ∨
      hasPartialResult (runLoop env candidates).1.steps = false) ∧
    (runLoop partialFailureEnv ["knowledge", "calendar"]).1.status =
      RunStatus.completed ∧
    (runLoop partialFailureEnv ["knowledge", "calendar"]).1.steps.length = 2 ∧
    failedTools (runLoop partialFailureEnv ["knowledge", "calendar"]).1.steps =
      ["deep_search"] ∧
    ((runLoop partialFailureEnv ["knowledge", "calendar"]).1.steps.getD 1
        defaultStep).tool = some "create_event" ∧
    ((runLoop partialFailureEnv ["knowledge", "calendar"]).1.steps.getD 1
        defaultStep).status = StepStatus.success ∧
    (runLoop partialFailureEnv ["knowledge", "calendar"]).1.final_output =
      some "Event created I could not complete: deep_search." := by
  refine ⟨?_, by decide, by decide, by decide, by decide, by decide, by decide⟩
  exact (runLoopAux_master env env.maxHops candidates initRun rfl rfl).2.2.2.2.2

/-- C7 witness: a concrete run whose critical `execute_payment` tool
fails is `failed`, and the amended propagation rule applies to it. -/
theorem c7_failure_propagation_witness :
    (runLoop criticalFailureEnv ["finance"]).1.status = RunStatus.failed ∧
    ((∃ s ∈ (runLoop criticalFailureEnv ["finance"]).1.steps, ∃ tl,
        s.tool = some tl ∧ criticalFailureEnv.critical tl = true ∧
        s.status ≠ StepStatus.success) ∨
      hasPartialResult (runLoop criticalFailureEnv ["finance"]).1.steps = false) :=
  ⟨by decide,
   (c7_failure_propagation_amended criticalFailureEnv ["finance"]).1 (by decide)⟩

/-- C1 witness: the hop-budget bound evaluated on a concrete
environment and candidate list. -/
theorem c1_hop_budget_bound_witness :
    (runLoop handoffOnlyEnv ["chief"]).1.steps.length ≤ handoffOnlyEnv.maxHops ∧
    (runLoop handoffOnlyEnv ["chief"]).1.status ≠ RunStatus.running :=
  ⟨(c1_hop_budget_bound handoffOnlyEnv ["chief"]).1,
   (c1_hop_budget_bound handoffOnlyEnv ["chief"]).2⟩

end Runtime

namespace Guard

theorem find_replace_self (s : Store) (k : String) (r : IdempotencyRecord) :
    List.find? (fun p => p.1 = k)
        (List.map (fun p => if p.1 = k then (k, r) else p) s) =
      if (List.find? (fun p => p.1 = k) s).isSome = true then some (k, r)
      else none := by
  induction s with
  | nil => rfl
  | cons p t ih =>
    by_cases hp : p.1 = k
    · simp [hp]
    · rw [List.map_cons, if_neg hp,
        List.find?_cons_of_neg _ (by simpa using hp),
        List.find?_cons_of_neg _ (by simpa using hp), ih]

theorem find_replace_other (s : Store) (k k2 : String) (r : IdempotencyRecord)
    (h : ¬k2 = k) :
    List.find? (fun p => p.1 = k2)
        (List.map (fun p => if p.1 = k then (k, r) else p) s) =
      List.find? (fun p => p.1 = k2) s := by
  induction s with
  | nil => rfl
  | cons p t ih =>
    by_cases hp : p.1 = k
    · have hk2 : ¬(k = k2) := fun hx => h hx.symm
      have hp2 : ¬(p.1 = k2) := by rw [hp]; exact hk2
      rw [List.map_cons, if_pos hp,
        List.find?_cons_of_neg _ (by simpa using hk2),
        List.find?_cons_of_neg _ (by simpa using hp2), ih]
    · by_cases hp2 : p.1 = k2
      · rw [List.map_cons, if_neg hp,
          List.find?_cons_of_pos _ (by simpa using hp2),
          List.find?_cons_of_pos _ (by simpa using hp2)]
      · rw [List.map_cons, if_neg hp,
          List.find?_cons_of_neg _ (by simpa using hp2),
          List.find?_cons_of_neg _ (by simpa using hp2), ih]

theorem lookupRec_setRec_self (s : Store) (k : String) (r : IdempotencyRecord) :
    lookupRec (setRec s k r) k = some r := by
  unfold lookupRec setRec
  split
  · rw [find_replace_self]
    next h => rw [if_pos h]; rfl
  · next h =>
    have hn : List.find? (fun p => p.1 = k) s = none :=
      Option.not_isSome_iff_eq_none.mp h
    rw [List.find?_append, hn]
    simp

theorem lookupRec_setRec_other (s : Store) (k k2 : String)
    (r : IdempotencyRecord) (h : ¬k2 = k) :
    lookupRec (setRec s k r) k2 = lookupRec s k2 := by
  unfold lookupRec setRec
  split
  · rw [find_replace_other s k k2 r h]
  · have hk : ¬(k = k2) := fun hx => h hx.symm
    rw [List.find?_append]
    cases hf : List.find? (fun p => p.1 = k2) s with
    | none => simp [hk]
    | some v => simp

theorem lookupRec_completeRun_expires (s : Store) (k : String) (out : String)
    (k2 : String) :
    (lookupRec (completeRun s k out) k2).map (fun r => r.expires_at) =
      (lookupRec s k2).map (fun r => r.expires_at) := by
  unfold completeRun
  cases hlk : lookupRec s k with
  | none => rfl
  | some r =>
    by_cases hk : k2 = k
    · subst hk
      rw [lookupRec_setRec_self, hlk]
      rfl
    · rw [lookupRec_setRec_other s k k2 _ hk]

theorem stepGateway_inv (ttl : Nat) (g : GatewayLog) (op : GatewayOp)
    (hP : ∀ k, List.Chain' (fun a b => a + ttl ≤ b) (invTimes g k) ∧
      (∀ r, lookupRec g.store k = some r →
         ∃ pre t, invTimes g k = pre ++ [t] ∧ r.expires_at = t + ttl) ∧
      (lookupRec g.store k = none → invTimes g k = [])) :
    ∀ k, List.Chain' (fun a b => a + ttl ≤ b)
        (invTimes (stepGateway ttl g op) k) ∧
      (∀ r, lookupRec (stepGateway ttl g op).store k = some r →
         ∃ pre t, invTimes (stepGateway ttl g op) k = pre ++ [t] ∧
           r.expires_at = t + ttl) ∧
      (lookupRec (stepGateway ttl g op).store k = none →
         invTimes (stepGateway ttl g op) k = []) := by
  cases op with
  | finish k0 out =>
    intro k
    obtain ⟨h1, h2, h3⟩ := hP k
    have hstep : stepGateway ttl g (GatewayOp.finish k0 out) =
        { store := completeRun g.store k0 out
          invocations := g.invocations
          responses := g.responses } := rfl
    have hmap := lookupRec_completeRun_expires g.store k0 out k
    rw [hstep]
    dsimp only
    have hinv : invTimes
        { store := completeRun g.store k0 out
          invocations := g.invocations
          responses := g.responses } k = invTimes g k := rfl
    rw [hinv]
    refine ⟨h1, ?_, ?_⟩
    · intro r hr
      cases hlk : lookupRec g.store k with
      | none =>
        rw [hr, hlk] at hmap
        simp at hmap
      | some r0 =>
        obtain ⟨pre, t, hpre, hex⟩ := h2 r0 hlk
        refine ⟨pre, t, hpre, ?_⟩
        rw [hr, hlk] at hmap
        simp at hmap
        rw [hmap, hex]
    · intro hnone
      cases hlk : lookupRec g.store k with
      | none => exact h3 hlk
      | some r0 =>
        rw [hnone, hlk] at hmap
        simp at hmap
  | inbound k0 now =>
    cases hlk : lookupRec g.store k0 with
    | some r =>
      by_cases hlt : now < r.expires_at
      · have ha : admitEvent ttl g.store k0 now = (false, r.result, g.store) := by
          simp [admitEvent, hlk, hlt]
        have hsi : (stepGateway ttl g (GatewayOp.inbound k0 now)).store = g.store ∧
            (stepGateway ttl g (GatewayOp.inbound k0 now)).invocations =
              g.invocations := by
          simp only [stepGateway, ha]
          cases r.result <;> simp
        obtain ⟨hs, hi⟩ := hsi
        intro k
        obtain ⟨h1, h2, h3⟩ := hP k
        have hinv : invTimes (stepGateway ttl g (GatewayOp.inbound k0 now)) k =
            invTimes g k := by
          unfold invTimes
          rw [hi]
        rw [hinv, hs]
        exact ⟨h1, h2, h3⟩
      · have ha : admitEvent ttl g.store k0 now =
            (true, none, setRec g.store k0
              { first_seen_at := now, expires_at := now + ttl, result := none }) := by
          simp [admitEvent, hlk, hlt]
        have hstep : stepGateway ttl g (GatewayOp.inbound k0 now) =
            { store := setRec g.store k0
                { first_seen_at := now, expires_at := now + ttl, result := none }
              invocations := g.invocations ++ [(k0, now)]
              responses := g.responses ++ [(k0, GatewayResponse.executed)] } := by
          simp [stepGateway, ha]
        intro k
        obtain ⟨h1, h2, h3⟩ := hP k
        by_cases hk : k = k0
        · subst hk
          obtain ⟨pre, t, hpre, hex⟩ := h2 r hlk
          have hinv : invTimes (stepGateway ttl g (GatewayOp.inbound k now)) k =
              invTimes g k ++ [now] := by
            rw [hstep]
            unfold invTimes
            simp [List.filter_append]
          have hle : t + ttl ≤ now := by
            rw [← hex]
            exact Nat.le_of_not_lt hlt
          refine ⟨?_, ?_, ?_⟩
          · rw [hinv, hpre]
            rw [List.chain'_append]
            refine ⟨by rw [← hpre]; exact h1, List.chain'_singleton now, ?_⟩
            intro x hx y hy
            rw [List.getLast?_concat] at hx
            simp at hx hy
            omega
          · intro r2 hr2
            rw [hstep] at hr2
            dsimp only at hr2
            rw [lookupRec_setRec_self] at hr2
            have he := Option.some.inj hr2
            refine ⟨invTimes g k, now, hinv, ?_⟩
            rw [← he]
          · intro hnone
            rw [hstep] at hnone
            dsimp only at hnone
            rw [lookupRec_setRec_self] at hnone
            cases hnone
        · have hne : (((k0, now) : String × Nat).1 == k) = false := by
            rw [beq_eq_false_iff_ne]
            exact fun hx => hk hx.symm
          have hinv : invTimes (stepGateway ttl g (GatewayOp.inbound k0 now)) k =
              invTimes g k := by
            rw [hstep]
            unfold invTimes
            simp [List.filter_append, hne]
          have hlk2 : lookupRec (stepGateway ttl g (GatewayOp.inbound k0 now)).store
              k = lookupRec g.store k := by
            rw [hstep]
            dsimp only
            exact lookupRec_setRec_other _ _ _ _ hk
          rw [hinv, hlk2]
          exact ⟨h1, h2, h3⟩
    | none =>
      have ha : admitEvent ttl g.store k0 now =
          (true, none, setRec g.store k0
            { first_seen_at := now, expires_at := now + ttl, result := none }) := by
        simp [admitEvent, hlk]
      have hstep : stepGateway ttl g (GatewayOp.inbound k0 now) =
          { store := setRec g.store k0
              { first_seen_at := now, expires_at := now + ttl, result := none }
            invocations := g.invocations ++ [(k0, now)]
            responses := g.responses ++ [(k0, GatewayResponse.executed)] } := by
        simp [stepGateway, ha]
      intro k
      obtain ⟨h1, h2, h3⟩ := hP k
      by_cases hk : k = k0
      · subst hk
        have hempty : invTimes g k = [] := h3 hlk
        have hinv : invTimes (stepGateway ttl g (GatewayOp.inbound k now)) k =
            [now] := by
          rw [hstep]
          unfold invTimes
          rw [List.filter_append, List.map_append]
          unfold invTimes at hempty
          rw [hempty]
          simp
        refine ⟨?_, ?_, ?_⟩
        · rw [hinv]
          exact List.chain'_singleton now
        · intro r2 hr2
          rw [hstep] at hr2
          dsimp only at hr2
          rw [lookupRec_setRec_self] at hr2
          have he := Option.some.inj hr2
          refine ⟨[], now, hinv, ?_⟩
          rw [← he]
        · intro hnone
          rw [hstep] at hnone
          dsimp only at hnone
          rw [lookupRec_setRec_self] at hnone
          cases hnone
      · have hne : (((k0, now) : String × Nat).1 == k) = false := by
          rw [beq_eq_false_iff_ne]
          exact fun hx => hk hx.symm
        have hinv : invTimes (stepGateway ttl g (GatewayOp.inbound k0 now)) k =
            invTimes g k := by
          rw [hstep]
          unfold invTimes
          simp [List.filter_append, hne]
        have hlk2 : lookupRec (stepGateway ttl g (GatewayOp.inbound k0 now)).store
            k = lookupRec g.store k := by
          rw [hstep]
          dsimp only
          exact lookupRec_setRec_other _ _ _ _ hk
        rw [hinv, hlk2]
        exact ⟨h1, h2, h3⟩

theorem foldlGateway_inv (ttl : Nat) :
    ∀ (ops : List GatewayOp) (g : GatewayLog),
      (∀ k, List.Chain' (fun a b => a + ttl ≤ b) (invTimes g k) ∧
        (∀ r, lookupRec g.store k = some r →
           ∃ pre t, invTimes g k = pre ++ [t] ∧ r.expires_at = t + ttl) ∧
        (lookupRec g.store k = none → invTimes g k = [])) →
      ∀ k, List.Chain' (fun a b => a + ttl ≤ b)
          (invTimes (ops.foldl (stepGateway ttl) g) k) ∧
        (∀ r, lookupRec (ops.foldl (stepGateway ttl) g).store k = some r →
           ∃ pre t, invTimes (ops.foldl (stepGateway ttl) g) k = pre ++ [t] ∧
             r.expires_at = t + ttl) ∧
        (lookupRec (ops.foldl (stepGateway ttl) g).store k = none →
           invTimes (ops.foldl (stepGateway ttl) g) k = []) := by
  intro ops
  induction ops with
  | nil => intro g h; exact h
  | cons op rest ih =>
    intro g h
    exact ih (stepGateway ttl g op) (stepGateway_inv ttl g op h)

/-- C2 counterexample: with the spec's 24-hour TTL, two `admit` calls
with the same dedupe key 24 hours apart — the second after the record
has expired, exactly as the spec's expiry rule prescribes — both return
`admitted=true`: the Gateway invokes the Execution Loop twice and
creates two AgentRuns for the same key, refuting »two calls to admit
with the same key never both return admitted=true« as stated. -/
theorem c2_admit_counterexample :
    (runGateway 86400
        [GatewayOp.inbound "k" 0, GatewayOp.inbound "k" 86400]).invocations =
      [("k", 0), ("k", 86400)] ∧
    (runGateway 86400
        [GatewayOp.inbound "k" 0, GatewayOp.inbound "k" 86400]).responses =
      [("k", GatewayResponse.executed), ("k", GatewayResponse.executed)] := by
  constructor
  · decide
  · decide

/-- C2 (amended): `admit` is atomic (modelled as one atomic
check-and-set step, concurrent calls being its linearizations), and two
calls with the same dedupe key never both return `admitted=true` while
the key's record is unexpired: any two Execution-Loop invocations for
one key are at least one TTL apart, so within a TTL window — in
particular for concurrent duplicates — exactly one AgentRun is created
per key; and on `admitted=false` the Gateway never re-invokes the loop
and answers with the replayed prior result or a pending
acknowledgment. -/
theorem c2_idempotency_amended (ttl : Nat) (ops : List GatewayOp) (k : String) :
    List.Chain' (fun a b => a + ttl ≤ b) (invTimes (runGateway ttl ops) k) ∧
    (∀ (g : GatewayLog) (key : String) (now : Nat),
       (admitEvent ttl g.store key now).1 = false →
       (stepGateway ttl g (GatewayOp.inbound key now)).invocations =
         g.invocations ∧
       ∃ resp, (stepGateway ttl g (GatewayOp.inbound key now)).responses =
           g.responses ++ [(key, resp)] ∧
         ((admitEvent ttl g.store key now).2.1 = none ∧
            resp = GatewayResponse.pendingAck ∨
          ∃ out, (admitEvent ttl g.store key now).2.1 = some out ∧
            resp = GatewayResponse.replayed out)) := by
  constructor
  · refine (foldlGateway_inv ttl ops emptyLog ?_ k).1
    intro k2
    refine ⟨List.chain'_nil, ?_, ?_⟩
    · intro r hr
      cases hr
    · intro _
      rfl
  · intro g key now hfalse
    cases hres : (admitEvent ttl g.store key now).2.1 with
    | none =>
      refine ⟨?_, GatewayResponse.pendingAck, ?_, Or.inl ⟨rfl, rfl⟩⟩
      · simp [stepGateway, hfalse, hres]
      · simp [stepGateway, hfalse, hres]
    | some out =>
      refine ⟨?_, GatewayResponse.replayed out, ?_, Or.inr ⟨out, rfl, rfl⟩⟩
      · simp [stepGateway, hfalse, hres]
      · simp [stepGateway, hfalse, hres]

/-- C2 witness: with a record freshly admitted for key `k`, a duplicate
ten seconds later is rejected, adds no Execution-Loop invocation, and
the invocation times for `k` are TTL-separated. -/
theorem c2_idempotency_amended_witness :
    (admitEvent 86400 (runGateway 86400 [GatewayOp.inbound "k" 0]).store
        "k" 10).1 = false ∧
    (stepGateway 86400 (runGateway 86400 [GatewayOp.inbound "k" 0])
        (GatewayOp.inbound "k" 10)).invocations =
      (runGateway 86400 [GatewayOp.inbound "k" 0]).invocations ∧
    List.Chain' (fun a b => a + 86400 ≤ b)
      (invTimes (runGateway 86400 [GatewayOp.inbound "k" 0]) "k") :=
  ⟨by decide,
   ((c2_idempotency_amended 86400 [GatewayOp.inbound "k" 0] "k").2
      (runGateway 86400 [GatewayOp.inbound "k" 0]) "k" 10 (by decide)).1,
   (c2_idempotency_amended 86400 [GatewayOp.inbound "k" 0] "k").1⟩

end Guard

namespace Reminder

theorem lookupSent_append_self (s : SentStore) (k : OccId) (v : Nat)
    (h : lookupSent s k = none) : lookupSent (s ++ [(k, v)]) k = some v := by
  unfold lookupSent at h ⊢
  rw [List.find?_append]
  cases hf : List.find? (fun p => p.1 = k) s with
  | none => simp
  | some p =>
    rw [hf] at h
    simp at h

theorem lookupSent_append_other (s : SentStore) (k0 k : OccId) (v : Nat)
    (h : ¬k = k0) : lookupSent (s ++ [(k0, v)]) k = lookupSent s k := by
  unfold lookupSent
  rw [List.find?_append]
  cases hf : List.find? (fun p => p.1 = k) s with
  | none =>
    have hk : ¬(k0 = k) := fun hx => h hx.symm
    simp [hk]
  | some p => simp

theorem sendsFor_append_self (log : List (OccId × Nat)) (k : OccId) (v : Nat) :
    sendsFor (log ++ [(k, v)]) k = sendsFor log k ++ [(k, v)] := by
  unfold sendsFor
  rw [List.filter_append]
  simp

theorem sendsFor_append_other (log : List (OccId × Nat)) (k0 k : OccId)
    (v : Nat) (h : ¬k = k0) :
    sendsFor (log ++ [(k0, v)]) k = sendsFor log k := by
  unfold sendsFor
  rw [List.filter_append]
  have hne : (((k0, v) : OccId × Nat).1 == k) = false := by
    rw [beq_eq_false_iff_ne]
    exact fun hx => h hx.symm
  simp [hne]

theorem runTicksFold_inv (dispatchOk : Nat → Bool) :
    ∀ (attempts : List (OccId × Nat)) (s : SentStore) (log : List (OccId × Nat)),
      (∀ k, (lookupSent s k = none → sendsFor log k = []) ∧
        (∀ t, lookupSent s k = some t →
           sendsFor log k = [(k, t)] ∧ dispatchOk t = true)) →
      ∀ k,
        (lookupSent (attempts.foldl
            (fun acc a =>
              let r := sendDue dispatchOk acc.1 a.1 a.2
              (r.1, if r.2 then acc.2 ++ [a] else acc.2)) (s, log)).1 k = none →
          sendsFor (attempts.foldl
            (fun acc a =>
              let r := sendDue dispatchOk acc.1 a.1 a.2
              (r.1, if r.2 then acc.2 ++ [a] else acc.2)) (s, log)).2 k = []) ∧
        (∀ t, lookupSent (attempts.foldl
            (fun acc a =>
              let r := sendDue dispatchOk acc.1 a.1 a.2
              (r.1, if r.2 then acc.2 ++ [a] else acc.2)) (s, log)).1 k = some t →
          sendsFor (attempts.foldl
            (fun acc a =>
              let r := sendDue dispatchOk acc.1 a.1 a.2
              (r.1, if r.2 then acc.2 ++ [a] else acc.2)) (s, log)).2 k =
              [(k, t)] ∧ dispatchOk t = true) := by
  intro attempts
  induction attempts with
  | nil =>
    intro s log h k
    exact h k
  | cons a rest ih =>
    intro s log h
    rcases a with ⟨k0, now⟩
    cases hlk : lookupSent s k0 with
    | some t0 =>
      have hsd : sendDue dispatchOk s k0 now = (s, false) := by
        simp [sendDue, hlk]
      simp only [List.foldl_cons, hsd]
      exact ih s log h
    | none =>
      by_cases hd : dispatchOk now = true
      · have hsd : sendDue dispatchOk s k0 now = (s ++ [(k0, now)], true) := by
          simp [sendDue, hlk, hd]
        simp only [List.foldl_cons, hsd]
        refine ih (s ++ [(k0, now)]) (log ++ [(k0, now)]) ?_
        intro k
        by_cases hk : k = k0
        · subst hk
          constructor
          · intro hn
            rw [lookupSent_append_self s k now hlk] at hn
            cases hn
          · intro t ht
            rw [lookupSent_append_self s k now hlk] at ht
            have hts := Option.some.inj ht
            rw [sendsFor_append_self, (h k).1 hlk, ← hts]
            exact ⟨rfl, hd⟩
        · constructor
          · intro hn
            rw [lookupSent_append_other s k0 k now hk] at hn
            rw [sendsFor_append_other log k0 k now hk]
            exact (h k).1 hn
          · intro t ht
            rw [lookupSent_append_other s k0 k now hk] at ht
            rw [sendsFor_append_other log k0 k now hk]
            exact (h k).2 t ht
      · have hsd : sendDue dispatchOk s k0 now = (s, false) := by
          simp [sendDue, hlk, hd]
        simp only [List.foldl_cons, hsd]
        exact ih s log h

/-- C3: the Reminder Scheduler sends at most one notification per
`(entity_id, occurrence_key)` across all ticks — overlapping ticks are
modelled by the linearization of the spec-mandated atomic
check-then-write steps: whatever sequence of due-occurrence attempts
the ticks produce, at most one dispatch succeeds per occurrence,
`sent_at` is set exactly at that dispatch's time, and the write exists
only for a successfully dispatched attempt. -/
theorem c3_reminder_at_most_once (dispatchOk : Nat → Bool)
    (attempts : List (OccId × Nat)) (k : OccId) :
    (sendsFor (runTicks dispatchOk attempts).2 k).length ≤ 1 ∧
    (∀ t, lookupSent (runTicks dispatchOk attempts).1 k = some t →
       sendsFor (runTicks dispatchOk attempts).2 k = [(k, t)] ∧
       dispatchOk t = true) ∧
    (lookupSent (runTicks dispatchOk attempts).1 k = none →
       sendsFor (runTicks dispatchOk attempts).2 k = []) := by
  have hbase : ∀ k2 : OccId,
      (lookupSent ([] : SentStore) k2 = none →
        sendsFor ([] : List (OccId × Nat)) k2 = []) ∧
      (∀ t, lookupSent ([] : SentStore) k2 = some t →
        sendsFor ([] : List (OccId × Nat)) k2 = [(k2, t)] ∧
        dispatchOk t = true) := by
    intro k2
    constructor
    · intro _; rfl
    · intro t ht; cases ht
  obtain ⟨hnone, hsome⟩ := runTicksFold_inv dispatchOk attempts [] [] hbase k
  unfold runTicks
  refine ⟨?_, hsome, hnone⟩
  cases hlk : lookupSent (List.foldl
      (fun acc a =>
        let r := sendDue dispatchOk acc.1 a.1 a.2
        (r.1, if r.2 then acc.2 ++ [a] else acc.2)) ([], []) attempts).1 k with
  | none =>
    rw [hnone hlk]
    decide
  | some t =>
    rw [(hsome t hlk).1]
    simp

/-- C3 witness: a concrete occurrence scanned by two overlapping ticks
is dispatched exactly once and its `sent_at` equals the first
successful attempt time. -/
theorem c3_reminder_at_most_once_witness :
    (sendsFor (runTicks (fun _ => true)
        [(⟨"meeting-1", "w1"⟩, 100), (⟨"meeting-1", "w1"⟩, 101)]).2
        ⟨"meeting-1", "w1"⟩).length ≤ 1 ∧
    lookupSent (runTicks (fun _ => true)
        [(⟨"meeting-1", "w1"⟩, 100), (⟨"meeting-1", "w1"⟩, 101)]).1
        ⟨"meeting-1", "w1"⟩ = some 100 ∧
    sendsFor (runTicks (fun _ => true)
        [(⟨"meeting-1", "w1"⟩, 100), (⟨"meeting-1", "w1"⟩, 101)]).2
        ⟨"meeting-1", "w1"⟩ = [(⟨"meeting-1", "w1"⟩, 100)] :=
  ⟨(c3_reminder_at_most_once (fun _ => true)
      [(⟨"meeting-1", "w1"⟩, 100), (⟨"meeting-1", "w1"⟩, 101)]
      ⟨"meeting-1", "w1"⟩).1,
   by decide,
   ((c3_reminder_at_most_once (fun _ => true)
      [(⟨"meeting-1", "w1"⟩, 100), (⟨"meeting-1", "w1"⟩, 101)]
      ⟨"meeting-1", "w1"⟩).2.1 100 (by decide)).1⟩

end Reminder

namespace Retrieval

/-- C4: tenant isolation of the retrieval contract: every chunk a
`search` with `tenant_filter = A` returns is tagged with tenant A, so a
query issued during tenant A's run never returns a chunk tagged with
any other tenant B — for every store, even one where distinct tenants
hold overlapping (identical) content, the filter is enforced before
ranking and the Runtime never receives another tenant's chunks. -/
theorem c4_tenant_isolation (store : List Chunk) (score : String → Chunk → Nat)
    (query tenant_filter : String) (top_k : Nat) :
    (∀ c ∈ search store score query tenant_filter top_k,
       c.tenant = tenant_filter) ∧
    (∀ other, ¬other = tenant_filter →
       ∀ c ∈ search store score query tenant_filter top_k,
         ¬c.tenant = other) := by
  have hmem : ∀ c ∈ search store score query tenant_filter top_k,
      c.tenant = tenant_filter := by
    intro c hc
    unfold search at hc
    have h1 := List.mem_of_mem_take hc
    have h2 := (List.mergeSort_perm _ _).mem_iff.mp h1
    have h3 := List.mem_filter.mp h2
    simpa using h3.2
  refine ⟨hmem, ?_⟩
  intro other hne c hc hcB
  exact hne (hcB.symm.trans (hmem c hc))

/-- C4 witness: two tenants A and B with identical content; the search
for tenant A returns exactly A's chunk and zero cross-tenant hits. -/
theorem c4_tenant_isolation_witness :
    ({ tenant := "A", content := "rixos phone" } : Chunk) ∈
      search [{ tenant := "A", content := "rixos phone" },
              { tenant := "B", content := "rixos phone" }]
        (fun _ _ => 0) "rixos" "A" 3 ∧
    ¬({ tenant := "A", content := "rixos phone" } : Chunk).tenant = "B" := by
  have hs : search [{ tenant := "A", content := "rixos phone" },
      { tenant := "B", content := "rixos phone" }]
      (fun _ _ => 0) "rixos" "A" 3 =
      [{ tenant := "A", content := "rixos phone" }] := by
    simp [search, List.mergeSort_singleton]
  constructor
  · rw [hs]
    exact List.mem_singleton.mpr rfl
  · exact (c4_tenant_isolation
      [{ tenant := "A", content := "rixos phone" },
       { tenant := "B", content := "rixos phone" }]
      (fun _ _ => 0) "rixos" "A" 3).2 "B" (by decide) _
      (by rw [hs]; exact List.mem_singleton.mpr rfl)

end Retrieval

namespace Quiet

theorem tickOcc_no_send (qs qe : Nat) (o : Occ) (now : Nat)
    (h : now < o.trigger_at ∨ quietHours qs qe now = true ∨
      o.relevance_end ≤ now) :
    tickOcc qs qe o none now = (none, false) := by
  unfold tickOcc
  rcases h with h1 | h2 | h3
  · rw [if_pos h1]
  · by_cases h1 : now < o.trigger_at
    · rw [if_pos h1]
    · rw [if_neg h1]
      by_cases h3 : o.relevance_end ≤ now
      · rw [if_pos h3]
      · rw [if_neg h3, if_pos h2]
  · by_cases h1 : now < o.trigger_at
    · rw [if_pos h1]
    · rw [if_neg h1, if_pos h3]

/-- C8: reminders due inside the quiet-hours window are not sent on any
quiet tick (first conjunct, for any occurrence and any prior `sent_at`
state); an occurrence each of whose ticks falls before the trigger,
inside quiet hours, or after its relevance window has fully elapsed is
never sent at all — dropped, not queued (second conjunct, covering a
reminder due at 23:30 with quiet hours 22:00–08:00 whose window elapses
by 08:00); and an unsent occurrence is re-evaluated and dispatched on a
tick after quiet hours end while still inside its relevance window
(third conjunct). -/
theorem c8_quiet_hours_suppression (qs qe : Nat) :
    (∀ (o : Occ) (sa : Option Nat) (now : Nat),
       quietHours qs qe now = true → (tickOcc qs qe o sa now).2 = false) ∧
    (∀ (o : Occ) (ticks : List Nat),
       (∀ now ∈ ticks, now < o.trigger_at ∨ quietHours qs qe now = true ∨
          o.relevance_end ≤ now) →
       (runOccTicks qs qe o ticks).2 = []) ∧
    (∀ (o : Occ) (now : Nat), o.trigger_at ≤ now → now < o.relevance_end →
       quietHours qs qe now = false → (tickOcc qs qe o none now).2 = true) := by
  refine ⟨?_, ?_, ?_⟩
  · intro o sa now hq
    cases sa with
    | some t => rfl
    | none =>
      rw [tickOcc_no_send qs qe o now (Or.inr (Or.inl hq))]
  · intro o ticks hprop
    have haux : ∀ (ts : List Nat),
        (∀ now ∈ ts, now < o.trigger_at ∨ quietHours qs qe now = true ∨
           o.relevance_end ≤ now) →
        ∀ acc : List Nat,
          (ts.foldl (fun acc now =>
              let r := tickOcc qs qe o acc.1 now
              (r.1, if r.2 then acc.2 ++ [now] else acc.2))
            ((none : Option Nat), acc)) = (none, acc) := by
      intro ts
      induction ts with
      | nil => intro _ acc; rfl
      | cons t rest ih =>
        intro hp acc
        have ht := hp t (List.mem_cons_self t rest)
        rw [List.foldl_cons]
        have hstep := tickOcc_no_send qs qe o t ht
        rw [hstep]
        exact ih (fun now hn => hp now (List.mem_cons_of_mem t hn)) acc
    unfold runOccTicks
    rw [haux ticks hprop []]
  · intro o now h1 h2 h3
    unfold tickOcc
    rw [if_neg (Nat.not_lt.mpr h1), if_neg (Nat.not_le.mpr h2)]
    rw [if_neg (by rw [h3]; exact Bool.false_ne_true)]

/-- C8 witness: quiet hours 22:00–08:00 (minutes 1320–480, wrapping
midnight); a reminder due at 23:30 of day zero (minute 1410) for a
meeting at 04:00 (minute 1680) is not sent on the 23:30 tick, is never
sent across ticks at 23:30, 00:05, 08:00 and 09:20 because its window
elapses before quiet hours end; and a different occurrence still inside
its window at 08:00 is dispatched then. -/
theorem c8_quiet_hours_suppression_witness :
    (tickOcc 1320 480 ⟨1410, 1680⟩ none 1410).2 = false ∧
    (runOccTicks 1320 480 ⟨1410, 1680⟩ [1410, 1445, 1920, 2000]).2 = [] ∧
    (tickOcc 1320 480 ⟨480, 1680⟩ none 480).2 = true :=
  ⟨(c8_quiet_hours_suppression 1320 480).1 ⟨1410, 1680⟩ none 1410 (by decide),
   (c8_quiet_hours_suppression 1320 480).2.1 ⟨1410, 1680⟩
     [1410, 1445, 1920, 2000] (by decide),
   (c8_quiet_hours_suppression 1320 480).2.2 ⟨480, 1680⟩ 480
     (by decide) (by decide) (by decide)⟩

end Quiet

namespace Chat

theorem applyEvent_as_map (aid : String) (msgs : List Message)
    (ev : StreamEvent) :
    ∃ f : Message → Message, applyEvent aid msgs ev = msgs.map f ∧
      ∀ m : Message, ¬m.id = aid → f m = m := by
  cases ev with
  | statusEv c =>
    exact ⟨fun m => if m.id = aid then
        { m with content := "🤖 " ++ c, intent := some "thinking" } else m,
      rfl, fun m hm => if_neg hm⟩
  | resultEv c i =>
    exact ⟨fun m => if m.id = aid then
        { m with content := c, intent := some i } else m,
      rfl, fun m hm => if_neg hm⟩
  | errorEv c =>
    exact ⟨fun m => if m.id = aid then
        { m with content := "❌ Ошибка: " ++ c } else m,
      rfl, fun m hm => if_neg hm⟩
  | otherEv =>
    exact ⟨id, (List.map_id msgs).symm, fun _ _ => rfl⟩

theorem foldl_applyEvent_as_map (aid : String) :
    ∀ (events : List StreamEvent) (msgs : List Message),
      ∃ f : Message → Message,
        events.foldl (applyEvent aid) msgs = msgs.map f ∧
        ∀ m : Message, ¬m.id = aid → f m = m := by
  intro events
  induction events with
  | nil =>
    intro msgs
    exact ⟨id, (List.map_id msgs).symm, fun _ _ => rfl⟩
  | cons e rest ih =>
    intro msgs
    obtain ⟨f1, h1, h1p⟩ := applyEvent_as_map aid msgs e
    obtain ⟨f2, h2, h2p⟩ := ih (applyEvent aid msgs e)
    refine ⟨f2 ∘ f1, ?_, ?_⟩
    · rw [List.foldl_cons, h2, h1, List.map_map]
    · intro m hm
      have hf1 : f1 m = m := h1p m hm
      have : (f2 ∘ f1) m = f2 (f1 m) := rfl
      rw [this, hf1]
      exact h2p m hm

theorem applyStreamError_as_map (aid : String) (msgs : List Message) :
    ∃ f : Message → Message, applyStreamError aid msgs = msgs.map f ∧
      ∀ m : Message, ¬m.id = aid → f m = m :=
  ⟨fun m => if m.id = aid then
      { m with content := "❌ Произошла ошибка связи." } else m,
    rfl, fun _ hm => if_neg hm⟩

theorem stream_phase_as_map (aid : String) (events : List StreamEvent)
    (streamFailed : Bool) (msgs : List Message) :
    ∃ F : Message → Message,
      (if streamFailed then
        applyStreamError aid (events.foldl (applyEvent aid) msgs)
      else events.foldl (applyEvent aid) msgs) = msgs.map F ∧
      ∀ m : Message, ¬m.id = aid → F m = m := by
  obtain ⟨f1, h1, h1p⟩ := foldl_applyEvent_as_map aid events msgs
  cases streamFailed with
  | false =>
    rw [if_neg Bool.false_ne_true]
    exact ⟨f1, h1, h1p⟩
  | true =>
    rw [if_pos rfl]
    obtain ⟨f2, h2, h2p⟩ := applyStreamError_as_map aid
      (events.foldl (applyEvent aid) msgs)
    refine ⟨f2 ∘ f1, ?_, ?_⟩
    · rw [h2, h1, List.map_map]
    · intro m hm
      have hcomp : (f2 ∘ f1) m = f2 (f1 m) := rfl
      rw [hcomp, h1p m hm]
      exact h2p m hm

/-- C9: `sendMessage` returns immediately — no request issued, state
unchanged — when the effective message text is empty or a request is
already in flight; otherwise it issues the request, appends exactly the
user message and the assistant placeholder (the list grows by exactly
two), and the whole stream handling (status/result/error events and the
catch handler) only rewrites messages whose id is the placeholder's,
never changing the list length: the final message list is a pointwise
map over the appended list that fixes every message with a different
id. -/
theorem c9_sendMessage_frame (st : ChatState) (text : Option String)
    (userId assistantId : String) (now : Nat) (events : List StreamEvent)
    (streamFailed : Bool) :
    ((messageTextOf text st.input = "" ∨ st.loading = true) →
       sendMessage st text userId assistantId now events streamFailed =
         (st, false)) ∧
    (¬(messageTextOf text st.input = "" ∨ st.loading = true) →
       (sendMessage st text userId assistantId now events streamFailed).2 =
         true ∧
       (sendMessage st text userId assistantId now events
           streamFailed).1.messages.length = st.messages.length + 2 ∧
       ∃ F : Message → Message,
         (sendMessage st text userId assistantId now events
             streamFailed).1.messages =
           (st.messages ++
             ([{ id := userId, role := "user",
                 content := messageTextOf text st.input, timestamp := now,
                 intent := none },
               { id := assistantId, role := "assistant", content := "...",
                 timestamp := now, intent := some "thinking" }] :
               List Message)).map F ∧
         ∀ m : Message, ¬m.id = assistantId → F m = m) := by
  constructor
  · intro h
    unfold sendMessage
    rw [if_pos h]
  · intro h
    unfold sendMessage
    rw [if_neg h]
    dsimp only
    obtain ⟨F, hF, hFp⟩ := stream_phase_as_map assistantId events streamFailed
      (st.messages ++
        [{ id := userId, role := "user",
           content := messageTextOf text st.input, timestamp := now,
           intent := none }] ++
        [{ id := assistantId, role := "assistant", content := "...",
           timestamp := now, intent := some "thinking" }])
    refine ⟨rfl, ?_, F, ?_, hFp⟩
    · rw [hF, List.length_map]
      simp [List.length_append]
    · rw [hF, List.append_assoc]
      rfl

/-- C9 witness: a concrete non-empty, non-loading state issues the
request and ends with exactly two more messages. -/
theorem c9_sendMessage_frame_witness :
    (sendMessage ⟨[], "", false⟩ (some "hi") "1" "2" 0
        [StreamEvent.resultEv "ok" "finance"] false).2 = true ∧
    (sendMessage ⟨[], "", false⟩ (some "hi") "1" "2" 0
        [StreamEvent.resultEv "ok" "finance"] false).1.messages.length = 2 :=
  ⟨((c9_sendMessage_frame ⟨[], "", false⟩ (some "hi") "1" "2" 0
      [StreamEvent.resultEv "ok" "finance"] false).2 (by decide)).1,
   ((c9_sendMessage_frame ⟨[], "", false⟩ (some "hi") "1" "2" 0
      [StreamEvent.resultEv "ok" "finance"] false).2 (by decide)).2.1⟩


end Chat

namespace I18n

/-- C10 counterexample: the translation table nests objects, and for the
dotted key `"nav"` the walk lands on the interior `nav` object node,
which is truthy — so `t` returns that object, not a string, refuting
»t always returns a non-empty string for a non-empty key« as stated;
at runtime the TypeScript function returns the nested object despite
its declared `string` return type. -/
theorem c10_t_returns_string_counterexample :
    isStr (tFun translations "ru" "nav") = false ∧ ¬("nav" : String) = "" := by
  constructor
  · decide
  · decide

/-- C10 (amended): for every table, language and dotted key, `t` is
total (a total function by construction, with optional chaining at
every step, so it never throws); whenever the walk yields a missing or
falsy value it returns the key string itself unchanged; for a non-empty
key its result is always truthy — the key itself when the lookup fails,
a non-empty string when the walk lands on a string leaf, and the nested
object itself (not a string) when the key names an interior node. -/
theorem c10_t_total_fallback (table : List (String × JSVal))
    (lang key : String) (hk : ¬key = "") :
    (truthy (walkVal table lang key) = false →
       tFun table lang key = JSVal.str key) ∧
    truthy (some (tFun table lang key)) = true ∧
    (∀ s, tFun table lang key = JSVal.str s → ¬s = "") := by
  have htf : tFun table lang key =
      (match walkVal table lang key with
       | some v => if truthy (some v) then v else JSVal.str key
       | none => JSVal.str key) := rfl
  cases hw : walkVal table lang key with
  | none =>
    have h0 : tFun table lang key = JSVal.str key := by rw [htf, hw]
    refine ⟨fun _ => h0, ?_, ?_⟩
    · rw [h0]
      unfold truthy
      simp [hk]
    · intro s hs
      rw [h0] at hs
      have hk2 := JSVal.str.inj hs
      rw [← hk2]
      exact hk
  | some v =>
    by_cases ht : truthy (some v) = true
    · have h0 : tFun table lang key = v := by
        rw [htf, hw]
        show (if truthy (some v) = true then v else JSVal.str key) = v
        rw [if_pos ht]
      refine ⟨?_, ?_, ?_⟩
      · intro hf
        rw [ht] at hf
        cases hf
      · rw [h0]
        exact ht
      · intro s hs
        rw [h0] at hs
        rw [hs] at ht
        unfold truthy at ht
        intro hse
        rw [hse] at ht
        simp at ht
    · have htf2 : truthy (some v) = false := by
        cases hb : truthy (some v) with
        | true => exact absurd hb ht
        | false => rfl
      have h0 : tFun table lang key = JSVal.str key := by
        rw [htf, hw]
        show (if truthy (some v) = true then v else JSVal.str key) =
          JSVal.str key
        rw [if_neg (by rw [htf2]; exact Bool.false_ne_true)]
      refine ⟨fun _ => h0, ?_, ?_⟩
      · rw [h0]
        unfold truthy
        simp [hk]
      · intro s hs
        rw [h0] at hs
        have hk2 := JSVal.str.inj hs
        rw [← hk2]
        exact hk

/-- C10 witness: on the real table, language `ru` and the leaf key
`common.save`, `t` returns a truthy value. -/
theorem c10_t_total_fallback_witness :
    ¬("common.save" : String) = "" ∧
    truthy (some (tFun translations "ru" "common.save")) = true :=
  ⟨by decide,
   (c10_t_total_fallback translations "ru" "common.save" (by decide)).2.1⟩

end I18n
